import Mathlib

/-!
Verification development for the bb-trainer replay analysis core.

The TypeScript sources are shallowly embedded as Lean definitions:
  - `src/domain/replay/types.ts`   → the data model structures below
  - `src/domain/analysis/rules.ts` → the heuristic rule evaluators
  - `src/domain/replay/decodeReplay.ts` → `decodeReplayInput`
  - `src/domain/replay/buildTimeline.ts` → `buildTimeline`
  - `src/server/services/analyzeReplay.ts` → team attribution helpers
  - the structured XML parser → `extractStructuredTurnsFromReplayXml`
    and `collectSequenceEvents`, embedded over the token stream of its
    scanning regex, with the host regex / base64 / XML-fragment
    machinery passed in as pure oracles

JavaScript `string | undefined` fields become `Option String`; JS string
union types become `String` (their runtime representation), with the set
of union members captured as an explicit list where a claim needs it.
JS `Map` objects become insertion-ordered association lists with the
`Map.get` / `Map.set` / `Map.delete` operations spelled out.
-/

namespace BBTrainer

/-- `ReplayEventType` union of `types.ts`, by its runtime string values. -/
def replayEventTypeNames : List String :=
  ["block", "blitz", "dodge", "reroll", "casualty", "ball_state", "turnover"]

/-- `ReplayTeam` of `types.ts`. -/
structure ReplayTeam where
  id : String
  name : String
  coach : Option String
deriving Repr, DecidableEq

/-- `ReplayEvent` of `types.ts`.  `type` is the runtime string of the
`ReplayEventType` union.  `actionLabel` / `stepLabel` are read by
`rules.ts` when building evidence, so they are part of the model. -/
structure ReplayEvent where
  type : String
  sourceTag : String
  playerId : Option String := none
  targetId : Option String := none
  teamId : Option String := none
  gamerId : Option String := none
  actionCode : Option Int := none
  stepType : Option Int := none
  reasonCode : Option Int := none
  finishingTurnType : Option Int := none
  actionLabel : Option String := none
  stepLabel : Option String := none
deriving Repr, DecidableEq

/-- `ReplayTurn` of `types.ts`.  `raw` is the serialized snapshot. -/
structure ReplayTurn where
  turnNumber : Nat
  teamId : Option String := none
  gamerId : Option String := none
  ballCarrierPlayerId : Option String := none
  possibleTurnover : Bool := false
  endTurnReason : Option Int := none
  endTurnReasonLabel : Option String := none
  finishingTurnType : Option Int := none
  events : List ReplayEvent := []
  actionTexts : List String := []
  eventCount : Nat := 0
  raw : String := ""
deriving Repr, DecidableEq

/-- `ReplayModel` of `types.ts`.  `playerNamesByTeamAndId` is the
composite-keyed roster record, kept as its insertion-ordered key/value
list. -/
structure ReplayModel where
  matchId : String := ""
  rootTag : String := ""
  teams : List ReplayTeam := []
  turns : List ReplayTurn := []
  playerNamesByTeamAndId : List (String × String) := []
  raw : String := ""
deriving Repr, DecidableEq

/-- `TimelineTurn` keyword-hit record of `types.ts`. -/
structure KeywordHits where
  turnover : Nat
  reroll : Nat
  blitz : Nat
  dodge : Nat
  block : Nat
deriving Repr, DecidableEq

/-- `TimelineTurn` of `types.ts`. -/
structure TimelineTurn where
  turnNumber : Nat
  teamId : Option String
  rawEventCount : Nat
  keywordHits : KeywordHits
deriving Repr, DecidableEq

/-- One evidence snippet of an `AnalysisFinding`; the TS code builds
object literals with differing key subsets, modelled as one record of
optional fields. -/
structure EvidenceItem where
  eventType : Option String := none
  sourceTag : Option String := none
  code : Option String := none
  detail : Option String := none
deriving Repr, DecidableEq

/-- `AnalysisFinding` of `domain/analysis/types`.  `severity` is the
runtime string of the `high | medium | low` union. -/
structure AnalysisFinding where
  id : String
  severity : String
  category : String
  title : String
  detail : String
  recommendation : String
  turnNumber : Option Nat := none
  evidence : List EvidenceItem := []
deriving Repr, DecidableEq

/-- `TeamContext`: the rule evaluators only ever read its `mode` field
(`offense | defense | mixed`), kept as the runtime string. -/
structure TeamContext where
  mode : String
deriving Repr, DecidableEq

/-! ## rules.ts helpers -/

/-- `findingId` of `rules.ts`. -/
def findingId (pre : String) (turn : Nat) : String :=
  pre ++ "-turn-" ++ Nat.repr turn

/-- `contextRecommendation` of `rules.ts`. -/
def contextRecommendation (context : TeamContext)
    (offense defense mixed : String) : String :=
  if context.mode = "offense" then offense
  else if context.mode = "defense" then defense
  else mixed

/-- `countEvents` of `rules.ts`. -/
def countEvents (turn : ReplayTurn) (eventType : String) : Nat :=
  (turn.events.filter (fun event => event.type = eventType)).length

/-- `hasRiskyActionBeforeBallSafety` of `rules.ts`.  `findIndex`
returns -1 when absent; the `firstBallIndex <= 0` guard therefore fails
both when no `ball_state` event exists and when it comes first. -/
def hasRiskyActionBeforeBallSafety (turn : ReplayTurn) : Bool :=
  match turn.events.findIdx? (fun event => event.type = "ball_state") with
  | none => false
  | some 0 => false
  | some firstBallIndex =>
    (turn.events.take firstBallIndex).any
      (fun event => event.type = "dodge" || event.type = "block" || event.type = "blitz")

/-- `toEvidenceFromTurn` of `rules.ts`. -/
def toEvidenceFromTurn (turn : ReplayTurn) (maxItems : Nat) : List EvidenceItem :=
  (turn.events.take maxItems).map (fun event =>
    { eventType := some event.type
      sourceTag := some event.sourceTag
      code := match event.actionLabel with
        | some l => some l
        | none => event.stepLabel })

/-- `limitFindings.go`: the `filter` with the running `byCategory` map,
the map modelled as a function from category to count. -/
def limitFindingsGo (maxByCategory : Nat) :
    List AnalysisFinding → (String → Nat) → List AnalysisFinding
  | [], _ => []
  | finding :: rest, byCategory =>
    let count := byCategory finding.category
    if maxByCategory ≤ count then
      limitFindingsGo maxByCategory rest byCategory
    else
      finding :: limitFindingsGo maxByCategory rest
        (fun c => if c = finding.category then count + 1 else byCategory c)

/-- `limitFindings` of `rules.ts` (the default cap 6 is passed
explicitly at each call site in this embedding). -/
def limitFindings (findings : List AnalysisFinding) (maxByCategory : Nat) :
    List AnalysisFinding :=
  limitFindingsGo maxByCategory findings (fun _ => 0)

/-- JS truthiness of a `string | undefined` value: `undefined` and the
empty string are falsy. -/
def strTruthy : Option String → Bool
  | none => false
  | some s => s ≠ ""

/-- JS `Array.findIndex` over events: `-1` when no element matches. -/
def findIndexEv (p : ReplayEvent → Bool) (events : List ReplayEvent) : Int :=
  match events.findIdx? p with
  | none => -1
  | some i => (i : Int)

/-! ## rules.ts evaluators -/

/-- Body of the `evaluateTurnoverCause` loop of `rules.ts`.  Note the
source returns these findings directly, without `limitFindings`. -/
def turnoverCauseFindings (replay : ReplayModel) (context : TeamContext) :
    List AnalysisFinding :=
  replay.turns.filterMap (fun turn =>
    if !turn.possibleTurnover then none
    else
      let likelyCauseEvent :=
        ((turn.events.find? (fun e => e.type = "dodge")).orElse (fun _ =>
          turn.events.find? (fun e => e.type = "block"))).orElse (fun _ =>
            turn.events.find? (fun e => e.type = "ball_state"))
      some
        { id := findingId "turnover-cause" turn.turnNumber
          severity := "high"
          category := "turnover_cause"
          title := "Turn " ++ Nat.repr turn.turnNumber ++ " ended early"
          detail :=
            match likelyCauseEvent with
            | some e => "Your turn stopped after a risky play around " ++ e.sourceTag ++ "."
            | none => "Your turn stopped before you finished your plan."
          recommendation := contextRecommendation context
            "Protect the ball first, then do risky dice actions at the end of your turn."
            "Mark key players first, then take risky dice actions at the end of your turn."
            "Make safe moves first, then do risky dice actions at the end of your turn."
          turnNumber := some turn.turnNumber
          evidence :=
            [{ eventType := likelyCauseEvent.map (fun e => e.type)
               sourceTag := likelyCauseEvent.map (fun e => e.sourceTag)
               code := some
                 (match turn.endTurnReasonLabel with
                  | some label => label
                  | none =>
                    match turn.endTurnReason with
                    | some r => Int.repr r
                    | none => "unknown") }] })

/-- `evaluateTurnoverCause` of `rules.ts`: returns its findings without
a `limitFindings` pass. -/
def evaluateTurnoverCause (replay : ReplayModel) (context : TeamContext) :
    List AnalysisFinding :=
  turnoverCauseFindings replay context

/-- Body of the `evaluateActionOrdering` loop of `rules.ts`. -/
def actionOrderingFindings (replay : ReplayModel) (context : TeamContext) :
    List AnalysisFinding :=
  replay.turns.filterMap (fun turn =>
    if !hasRiskyActionBeforeBallSafety turn then none
    else
      some
        { id := findingId "action-order" turn.turnNumber
          severity := "medium"
          category := "action_ordering"
          title := "Turn " ++ Nat.repr turn.turnNumber ++ ": risky moves came too early"
          detail := "You took risky actions before securing the ball or key player positions."
          recommendation := contextRecommendation context
            "Start with safe movement and ball protection, then do blocks, blitzes, and dodges."
            "Set your screen and marks first, then do blocks, blitzes, and dodges."
            "Start with safe movement first, then do risky dice actions."
          turnNumber := some turn.turnNumber
          evidence := toEvidenceFromTurn turn 3 })

/-- `evaluateActionOrdering` of `rules.ts`. -/
def evaluateActionOrdering (replay : ReplayModel) (context : TeamContext) :
    List AnalysisFinding :=
  limitFindings (actionOrderingFindings replay context) 6

/-- Body of the `evaluateRerollTiming` loop of `rules.ts`. -/
def rerollTimingFindings (replay : ReplayModel) (context : TeamContext) :
    List AnalysisFinding :=
  replay.turns.filterMap (fun turn =>
    let rerollEvents := turn.events.filter (fun e => e.type = "reroll")
    if rerollEvents.length = 0 then none
    else
      match turn.events.findIdx? (fun e => e.type = "reroll") with
      | none => none
      | some firstRerollIndex =>
        let riskyAfterReroll :=
          ((turn.events.drop (firstRerollIndex + 1)).filter (fun e =>
            e.type = "dodge" || e.type = "block" || e.type = "blitz" || e.type = "foul")).length
        if riskyAfterReroll < 2 && !turn.possibleTurnover then none
        else
          some
            { id := findingId "reroll-timing" turn.turnNumber
              severity := if turn.possibleTurnover then "high" else "medium"
              category := "reroll_timing"
              title := "Turn " ++ Nat.repr turn.turnNumber ++ ": reroll used before the hard part"
              detail :=
                if 3 ≤ riskyAfterReroll then
                  "You spent a reroll early, then still had several risky dice actions left."
                else
                  "You used a reroll and still had risky actions left in the same turn."
              recommendation := contextRecommendation context
                "Save rerolls for key ball actions like pickup, dodge, or score attempts."
                "Save rerolls for your key blitz or a turnover-saving roll."
                "Do safe actions first so rerolls are saved for your most important roll."
              turnNumber := some turn.turnNumber
              evidence :=
                (rerollEvents.take 2).map (fun e =>
                  { eventType := some e.type
                    sourceTag := some e.sourceTag
                    code := match e.actionLabel with
                      | some l => some l
                      | none => e.stepLabel }) ++
                [{ detail := some ("risky_actions_after_reroll:" ++ Nat.repr riskyAfterReroll) }] })

/-- `evaluateRerollTiming` of `rules.ts`. -/
def evaluateRerollTiming (replay : ReplayModel) (context : TeamContext) :
    List AnalysisFinding :=
  limitFindings (rerollTimingFindings replay context) 6

/-- The finding pushed by `evaluateBallSafety` for a carrier change from
`previousCarrier` to `carrier` on `turn`. -/
def ballSafetyFinding (context : TeamContext) (turn : ReplayTurn)
    (previousCarrier carrier : String) : AnalysisFinding :=
  { id := findingId "ball-safety" turn.turnNumber
    severity := "medium"
    category := "ball_safety"
    title := "Turn " ++ Nat.repr turn.turnNumber ++ ": ball carrier changed"
    detail := "The ball moved to a new player. This can be risky if that player is not well protected."
    recommendation := contextRecommendation context
      "Before moving the ball, make sure the new carrier has support nearby."
      "If you steal the ball, secure it with support before making extra risky plays."
      "Before moving the ball, make sure the new carrier has support nearby."
    turnNumber := some turn.turnNumber
    evidence :=
      [{ eventType := some "ball_state"
         sourceTag := some "Carrier"
         detail := some ("carrier:" ++ previousCarrier ++ "->" ++ carrier) }] }

/-- The `evaluateBallSafety` loop of `rules.ts`, with the mutable
`previousCarrier` variable threaded as a parameter.  The guard is the JS
truthiness test `turn.ballCarrierPlayerId && previousCarrier && ...`,
and `previousCarrier` is only overwritten by a truthy carrier. -/
def ballSafetyGo (context : TeamContext) :
    List ReplayTurn → Option String → List AnalysisFinding
  | [], _ => []
  | turn :: rest, previousCarrier =>
    let fired :=
      match turn.ballCarrierPlayerId, previousCarrier with
      | some c, some p =>
        if c ≠ "" && p ≠ "" && c ≠ p then [ballSafetyFinding context turn p c] else []
      | _, _ => []
    let nextCarrier :=
      if strTruthy turn.ballCarrierPlayerId then turn.ballCarrierPlayerId else previousCarrier
    fired ++ ballSafetyGo context rest nextCarrier

/-- `evaluateBallSafety` of `rules.ts`: note the source returns these
findings directly, without a `limitFindings` pass. -/
def evaluateBallSafety (replay : ReplayModel) (context : TeamContext) :
    List AnalysisFinding :=
  ballSafetyGo context replay.turns none

/-- Body of the `evaluateCageSafety` loop of `rules.ts`. -/
def cageSafetyFindings (replay : ReplayModel) (context : TeamContext) :
    List AnalysisFinding :=
  replay.turns.filterMap (fun turn =>
    if !strTruthy turn.ballCarrierPlayerId then none
    else
      let supportActions := countEvents turn "block" + countEvents turn "blitz"
      let riskyActions := countEvents turn "dodge" + countEvents turn "foul"
      if 0 < supportActions || (riskyActions < 2 && !turn.possibleTurnover) then none
      else
        some
          { id := findingId "cage-safety" turn.turnNumber
            severity := if turn.possibleTurnover then "high" else "medium"
            category := "cage_safety"
            title := "Turn " ++ Nat.repr turn.turnNumber ++ ": ball carrier looked exposed"
            detail := "You had the ball but made risky plays without enough protection actions first."
            recommendation := contextRecommendation context
              "Build a simple cage or screen around the ball before you dodge or foul."
              "If you recover the ball on defense, protect it first before extra risky plays."
              "Protect the ball first, then take extra risky actions."
            turnNumber := some turn.turnNumber
            evidence :=
              toEvidenceFromTurn turn 2 ++
                [{ detail := some ("support_actions:" ++ Nat.repr supportActions ++
                    "|risky_actions:" ++ Nat.repr riskyActions) }] })

/-- `evaluateCageSafety` of `rules.ts`. -/
def evaluateCageSafety (replay : ReplayModel) (context : TeamContext) :
    List AnalysisFinding :=
  limitFindings (cageSafetyFindings replay context) 6

/-- Body of the `evaluateScreenLanes` loop of `rules.ts`. -/
def screenLanesFindings (replay : ReplayModel) : List AnalysisFinding :=
  replay.turns.filterMap (fun turn =>
    let blockAndBlitz := countEvents turn "block" + countEvents turn "blitz"
    let dodges := countEvents turn "dodge"
    if 0 < blockAndBlitz || dodges < 2 then none
    else
      some
        { id := findingId "screen-lanes" turn.turnNumber
          severity := "medium"
          category := "screen_lanes"
          title := "Turn " ++ Nat.repr turn.turnNumber ++ ": defense looked stretched"
          detail := "You made several reposition dodges but had no contact actions to slow the drive."
          recommendation := "Set a two-line screen first so the opponent has to dodge before moving forward."
          turnNumber := some turn.turnNumber
          evidence :=
            toEvidenceFromTurn turn 2 ++
              [{ detail := some ("dodges:" ++ Nat.repr dodges ++
                  "|contact_actions:" ++ Nat.repr blockAndBlitz) }] })

/-- `evaluateScreenLanes` of `rules.ts`: skipped entirely for offense
context. -/
def evaluateScreenLanes (replay : ReplayModel) (context : TeamContext) :
    List AnalysisFinding :=
  if context.mode = "offense" then []
  else limitFindings (screenLanesFindings replay) 6

/-- Body of the `evaluateBlitzValue` loop of `rules.ts`. -/
def blitzValueFindings (replay : ReplayModel) (context : TeamContext) :
    List AnalysisFinding :=
  replay.turns.filterMap (fun turn =>
    let blitzCount := countEvents turn "blitz"
    if blitzCount = 0 then none
    else
      let casualtyCount := countEvents turn "casualty"
      let blockCount := countEvents turn "block"
      if !turn.possibleTurnover && 0 < casualtyCount then none
      else if !turn.possibleTurnover && 2 ≤ blockCount then none
      else
        some
          { id := findingId "blitz-value" turn.turnNumber
            severity := if turn.possibleTurnover then "high" else "medium"
            category := "blitz_value"
            title := "Turn " ++ Nat.repr turn.turnNumber ++ ": blitz gave low value"
            detail :=
              if turn.possibleTurnover then
                "The blitz was followed by a failed sequence and your turn ended early."
              else
                "The blitz did not create clear pressure or player advantage."
            recommendation := contextRecommendation context
              "Use blitz to open the path for your ball carrier or remove a key marker."
              "Use blitz on the ball side to pressure the carrier or break the cage corner."
              "Use blitz where it changes the board, not just for a single hit."
            turnNumber := some turn.turnNumber
            evidence :=
              toEvidenceFromTurn turn 2 ++
                [{ detail := some ("blitz:" ++ Nat.repr blitzCount ++
                    "|block:" ++ Nat.repr blockCount ++
                    "|casualty:" ++ Nat.repr casualtyCount) }] })

/-- `evaluateBlitzValue` of `rules.ts`. -/
def evaluateBlitzValue (replay : ReplayModel) (context : TeamContext) :
    List AnalysisFinding :=
  limitFindings (blitzValueFindings replay context) 6

/-- Body of the `evaluateFoulTiming` loop of `rules.ts`. -/
def foulTimingFindings (replay : ReplayModel) (context : TeamContext) :
    List AnalysisFinding :=
  replay.turns.filterMap (fun turn =>
    let foulCount := countEvents turn "foul"
    if foulCount = 0 then none
    else
      let firstFoulIndex := findIndexEv (fun e => e.type = "foul") turn.events
      let firstBallStateIndex := findIndexEv (fun e => e.type = "ball_state") turn.events
      let foulBeforeBallSafety :=
        (0 : Int) ≤ firstFoulIndex &&
          (firstBallStateIndex < (0 : Int) || firstFoulIndex < firstBallStateIndex)
      if !turn.possibleTurnover && !foulBeforeBallSafety then none
      else
        some
          { id := findingId "foul-timing" turn.turnNumber
            severity := if turn.possibleTurnover then "high" else "medium"
            category := "foul_timing"
            title := "Turn " ++ Nat.repr turn.turnNumber ++ ": foul timing was risky"
            detail :=
              if turn.possibleTurnover then
                "The foul sequence was part of a turn that ended early."
              else
                "You fouled before securing the safe parts of your turn."
            recommendation := contextRecommendation context
              "On offense, foul after the ball is safe and your screen is set."
              "On defense, foul after your key marks and blitz are done."
              "Treat fouls as late-turn actions unless it directly wins the drive."
            turnNumber := some turn.turnNumber
            evidence :=
              toEvidenceFromTurn turn 2 ++
                [{ detail := some ("foul_before_ball_safety:" ++
                    (if foulBeforeBallSafety then "true" else "false")) }] })

/-- `evaluateFoulTiming` of `rules.ts`. -/
def evaluateFoulTiming (replay : ReplayModel) (context : TeamContext) :
    List AnalysisFinding :=
  limitFindings (foulTimingFindings replay context) 6

/-! ## decodeReplay.ts -/

/-- `ReplayValidationError` of `lib/errors`, refined by which of the
three throw sites of `decodeReplay.ts` produced it; `message` recovers
the thrown message text. -/
inductive ReplayValidationError where
  | emptyInput : ReplayValidationError
  | notValidContent : ReplayValidationError
  | tooLarge : Nat → ReplayValidationError
deriving Repr, DecidableEq

/-- The message string carried by each `ReplayValidationError` of
`decodeReplay.ts`. -/
def ReplayValidationError.message : ReplayValidationError → String
  | .emptyInput => "Replay input is empty."
  | .notValidContent => "Replay input is not valid XML or supported BB3 .bbr content."
  | .tooLarge maxDecodedChars =>
    "Replay XML is too large after decode. Max size is " ++
      Nat.repr maxDecodedChars ++ " characters."

/-- `DecodedReplay` of `decodeReplay.ts`; `format` is the runtime string
of the `"xml" | "bbr"` union. -/
structure DecodedReplay where
  xml : String
  format : String
deriving Repr, DecidableEq

/-- JS `String.prototype.trim`: strip leading and trailing whitespace,
spelled out over the character list. -/
def jsTrim (s : String) : String :=
  String.mk
    (((s.data.dropWhile Char.isWhitespace).reverse.dropWhile Char.isWhitespace).reverse)

/-- Whether `pre` is a prefix of `s`, over the character lists. -/
def startsWithStr (s pre : String) : Bool :=
  pre.data.isPrefixOf s.data

/-- `XML_START_PATTERN` of `decodeReplay.ts`: the anchored regex
alternation over the four start markers. -/
def xmlStartPattern (s : String) : Bool :=
  startsWithStr s "<?xml" || startsWithStr s "<Replay" ||
    startsWithStr s "<MatchReplay" || startsWithStr s "<"

/-- `decodeReplayInput` of `decodeReplay.ts`.  The base64 + zlib helper
`decodeCompressedBase64` calls into `node:zlib`, so it is passed in as a
pure oracle; per its source it returns `null` (here `none`) on any
failure and the *decompressed text* on success — the JS caller also
treats an empty string result as falsy, embedded by the `decodedXml = ""`
test.  `maxDecodedChars = none` models an absent option, and the JS
truthiness guard `options.maxDecodedChars && ...` makes a `some 0` cap
inert. -/
def decodeReplayInput (decodeCompressedBase64 : String → Option String)
    (input : String) (maxDecodedChars : Option Nat) :
    Except ReplayValidationError DecodedReplay :=
  let raw := jsTrim input
  if raw.length = 0 then .error .emptyInput
  else if xmlStartPattern raw then
    match maxDecodedChars with
    | some m =>
      if m ≠ 0 && m < raw.length then .error (.tooLarge m)
      else .ok { xml := raw, format := "xml" }
    | none => .ok { xml := raw, format := "xml" }
  else
    match decodeCompressedBase64 raw with
    | none => .error .notValidContent
    | some decodedXml =>
      if decodedXml = "" then .error .notValidContent
      else
        match maxDecodedChars with
        | some m =>
          if m ≠ 0 && m < decodedXml.length then .error (.tooLarge m)
          else .ok { xml := decodedXml, format := "bbr" }
        | none => .ok { xml := decodedXml, format := "bbr" }

/-- The decoded text `decodeReplayInput` works with, ignoring the size
cap: `some` exactly when decoding succeeds (literal XML passthrough, or
a truthy result from the base64 + decompression helper). -/
def decodedTextOf (decodeCompressedBase64 : String → Option String)
    (input : String) : Option String :=
  let raw := jsTrim input
  if raw.length = 0 then none
  else if xmlStartPattern raw then some raw
  else
    match decodeCompressedBase64 raw with
    | none => none
    | some decodedXml => if decodedXml = "" then none else some decodedXml

/-! ## buildTimeline.ts -/

/-- The per-event `reduce` accumulator of `buildTimeline`. -/
def typedCountsStep (acc : KeywordHits) (event : ReplayEvent) : KeywordHits :=
  { turnover := if event.type = "turnover" then acc.turnover + 1 else acc.turnover
    reroll := if event.type = "reroll" then acc.reroll + 1 else acc.reroll
    blitz := if event.type = "blitz" then acc.blitz + 1 else acc.blitz
    dodge := if event.type = "dodge" then acc.dodge + 1 else acc.dodge
    block := if event.type = "block" then acc.block + 1 else acc.block }

/-- `buildTimeline` of `buildTimeline.ts`.  Two host facilities are
passed in as pure oracles: `stringifyLower` for
`JSON.stringify(turn.raw).toLowerCase()` over the opaque raw snapshot,
and `matchCount` for `countPatternMatches` applied to the fixed
`KEYWORD_PATTERNS` regex named by its key. -/
def buildTimeline (stringifyLower : String → String)
    (matchCount : String → String → Nat) (replay : ReplayModel) :
    List TimelineTurn :=
  replay.turns.map (fun turn =>
    let combinedText :=
      stringifyLower turn.raw ++ " " ++ String.intercalate " " turn.actionTexts
    let typedCounts :=
      turn.events.foldl typedCountsStep { turnover := 0, reroll := 0, blitz := 0, dodge := 0, block := 0 }
    { turnNumber := turn.turnNumber
      teamId := turn.teamId
      rawEventCount := max turn.eventCount 1
      keywordHits :=
        { turnover := max typedCounts.turnover (matchCount combinedText "turnover")
          reroll := max typedCounts.reroll (matchCount combinedText "reroll")
          blitz := max typedCounts.blitz (matchCount combinedText "blitz")
          dodge := max typedCounts.dodge (matchCount combinedText "dodge")
          block := max typedCounts.block (matchCount combinedText "block") } })

/-! ## analyzeReplay.ts team attribution -/

/-- `Map.get` over an insertion-ordered association list. -/
def mapGet (m : List (String × String)) (k : String) : Option String :=
  (m.find? (fun e => e.1 = k)).map (fun e => e.2)

/-- `Map.set` over an insertion-ordered association list: updates in
place when the key exists, otherwise appends. -/
def mapSet (m : List (String × String)) (k v : String) : List (String × String) :=
  if m.any (fun e => e.1 = k) then m.map (fun e => if e.1 = k then (k, v) else e)
  else m ++ [(k, v)]

/-- `Map.delete` over an insertion-ordered association list. -/
def mapDelete (m : List (String × String)) (k : String) : List (String × String) :=
  m.filter (fun e => e.1 ≠ k)

/-- The composite-key parse inside `buildUniquePlayerTeamMap`:
`key.indexOf(":")` with the `separatorIndex <= 0`,
`separatorIndex >= key.length - 1` and empty-part guards. -/
def parseCompositeKey (key : String) : Option (String × String) :=
  let cs := key.data
  let separatorIndex := cs.findIdx (fun c => c = ':')
  if separatorIndex = 0 ∨ cs.length - 1 ≤ separatorIndex then none
  else
    let teamId := String.mk (cs.take separatorIndex)
    let playerId := String.mk (cs.drop (separatorIndex + 1))
    if teamId = "" ∨ playerId = "" then none
    else some (teamId, playerId)

/-- One loop iteration of `buildUniquePlayerTeamMap`: state is the
`playerToTeam` map plus the `conflictingIds` set (an insertion-ordered
duplicate-free list). -/
def playerTeamStep (acc : List (String × String) × List String) (key : String) :
    List (String × String) × List String :=
  match parseCompositeKey key with
  | none => acc
  | some (teamId, playerId) =>
    match mapGet acc.1 playerId with
    | none => (mapSet acc.1 playerId teamId, acc.2)
    | some existing =>
      if existing ≠ teamId then
        (mapDelete acc.1 playerId,
          if playerId ∈ acc.2 then acc.2 else acc.2 ++ [playerId])
      else acc

/-- `buildUniquePlayerTeamMap` of `analyzeReplay.ts`: fold the roster
keys, then delete every conflicting player id from the final map. -/
def buildUniquePlayerTeamMap (replay : ReplayModel) : List (String × String) :=
  let result :=
    (replay.playerNamesByTeamAndId.map (fun e => e.1)).foldl playerTeamStep ([], [])
  result.2.foldl (fun m playerId => mapDelete m playerId) result.1

/-- `Map.get` returning `Nat` scores. -/
def scoreGet (m : List (String × Nat)) (k : String) : Option Nat :=
  (m.find? (fun e => e.1 = k)).map (fun e => e.2)

/-- The `addScore` closure of `inferTurnTeamId`:
`weightedScores.set(teamId, (weightedScores.get(teamId) ?? 0) + score)`. -/
def addScore (weightedScores : List (String × Nat)) (teamId : String) (score : Nat) :
    List (String × Nat) :=
  let current := (scoreGet weightedScores teamId).getD 0
  if weightedScores.any (fun e => e.1 = teamId) then
    weightedScores.map (fun e => if e.1 = teamId then (e.1, current + score) else e)
  else weightedScores ++ [(teamId, current + score)]

/-- The `weightedScores` map built by `inferTurnTeamId` before ranking:
owned events weighted by type, carrier bonus 2, weak team hint 1.  The
`if (!x) continue` guards are JS truthiness tests. -/
def weightedScores (turn : ReplayTurn) (playerToTeam : List (String × String)) :
    List (String × Nat) :=
  let afterEvents :=
    turn.events.foldl (fun acc event =>
      if !strTruthy event.playerId then acc
      else
        let ownerTeam := mapGet playerToTeam (event.playerId.getD "")
        if !strTruthy ownerTeam then acc
        else
          let score :=
            if event.type = "dodge" ∨ event.type = "blitz" ∨ event.type = "foul" ∨
                event.type = "reroll" then 4
            else if event.type = "block" then 2
            else 1
          addScore acc (ownerTeam.getD "") score) []
  let afterCarrier :=
    if strTruthy turn.ballCarrierPlayerId then
      let carrierTeam := mapGet playerToTeam (turn.ballCarrierPlayerId.getD "")
      if strTruthy carrierTeam then addScore afterEvents (carrierTeam.getD "") 2
      else afterEvents
    else afterEvents
  if strTruthy turn.teamId then addScore afterCarrier (turn.teamId.getD "") 1
  else afterCarrier

/-- The JS sort comparator `(a, b) => b[1] - a[1]`: descending by
score. -/
def scoreDescComparator (a b : String × Nat) : Bool :=
  b.2 ≤ a.2

/-- `inferTurnTeamId` of `analyzeReplay.ts`: rank the weighted scores
descending (JS `sort` with comparator `b[1] - a[1]` is stable, matching
a stable merge sort on `b.2 ≤ a.2`); an empty ranking or a tie between
the top two entries yields no decision. -/
def inferTurnTeamId (turn : ReplayTurn) (playerToTeam : List (String × String)) :
    Option String :=
  let ranked := (weightedScores turn playerToTeam).mergeSort scoreDescComparator
  match ranked with
  | [] => none
  | [x] => some x.1
  | x :: y :: _ => if y.2 = x.2 then none else some x.1

/-! ## Structured event parser

`extractStructuredTurnsFromReplayXml` scans the canonical XML with the
anchored `STRUCTURED_TOKEN_REGEX`, producing a stream of `(tag, body)`
token pairs (the regex only ever matches the four structural tag
names), and `collectSequenceEvents` decodes nested base64 + XML
fragments through `Buffer` and `fast-xml-parser`.  The embedding keeps
every branch of the scan loop and of the event mapping, as a function
of the scanned token stream; the host facilities — the fixed regex
matchers and the base64 / XML fragment decoding with its `toNumber` /
`toStringValue` field coercions — are passed in as pure oracles. -/

/-- The typed view of one decoded XML fragment as
`collectSequenceEvents` reads it: `Object.keys(parsed)[0]` as
`rootTag` (an absent root key modelled as the empty string — both are
falsy), and the payload fields it accesses, already passed through
`toNumber` / `toStringValue`. -/
structure ParsedFragment where
  rootTag : String
  stepType : Option Int := none
  playerId : Option String := none
  targetId : Option String := none
  teamId : Option String := none
  gamerId : Option String := none
  pushedPlayerId : Option String := none
  actionCode : Option Int := none
deriving Repr, DecidableEq

/-- The host-level pieces of the parser, as pure oracles: the
`STEP_MESSAGE_DATA_REGEX` capture and the `RESULT_MESSAGE_DATA_REGEX`
capture list over a sequence block, `decodeBase64Chain`,
`parseDecodedXml` with the payload field coercions, and the three fixed
regex matchers over a token body (`NewActiveGamer`, `Reason`,
`FinishingTurnType`, the latter two composed with `toNumber`). -/
structure ParserOracles where
  stepMessageDataOf : String → Option String
  resultMessageDataOf : String → List String
  decodeBase64Chain : String → String
  parseFragment : String → Option ParsedFragment
  matchNewActiveGamer : String → Option String
  matchReason : String → Option Int
  matchFinishingTurnType : String → Option Int

/-- The `sequenceContext` record of `collectSequenceEvents`. -/
structure SequenceContext where
  stepType : Option Int
  playerId : Option String
  targetId : Option String
  teamId : Option String
  gamerId : Option String
deriving Repr, DecidableEq

/-- The body of the result loop of `collectSequenceEvents`: the fixed
root-tag → event mapping, with payload ids defaulting to the step
context (`payload?.X ?? sequenceContext.x`; `toStringValue` maps
`undefined`/`null` to `undefined`, so converting before the `??` chain
is equivalent).  The source's independent `if` blocks are kept in
order.  The opaque `payload` passthrough of the source events is not
modelled; no embedded consumer reads it. -/
def resultEventsFor (sequenceContext : SequenceContext)
    (parsed : ParsedFragment) : List ReplayEvent :=
  let stepType := sequenceContext.stepType
  let playerId := (parsed.playerId.orElse (fun _ => parsed.pushedPlayerId)).orElse
    (fun _ => sequenceContext.playerId)
  let targetId := parsed.targetId.orElse (fun _ => sequenceContext.targetId)
  let teamId := parsed.teamId.orElse (fun _ => sequenceContext.teamId)
  let gamerId := parsed.gamerId.orElse (fun _ => sequenceContext.gamerId)
  let actionCode := parsed.actionCode
  (if parsed.rootTag = "ResultBlockRoll" ∨ parsed.rootTag = "ResultBlockOutcome" ∨
      parsed.rootTag = "ResultPushBack" then
    [{ type := "block", sourceTag := parsed.rootTag, stepType := stepType,
       playerId := playerId, targetId := targetId, teamId := teamId,
       gamerId := gamerId }]
  else []) ++
  ((if parsed.rootTag = "ResultUseAction" ∧ actionCode = some 2 then
    [{ type := "blitz", sourceTag := parsed.rootTag, stepType := stepType,
       playerId := playerId, targetId := targetId, teamId := teamId,
       gamerId := gamerId, actionCode := actionCode }]
  else []) ++
  ((if parsed.rootTag = "ResultRoll" ∧ sequenceContext.stepType = some 1 then
    [{ type := "dodge", sourceTag := parsed.rootTag, stepType := stepType,
       playerId := playerId, targetId := targetId, teamId := teamId,
       gamerId := gamerId }]
  else []) ++
  ((if parsed.rootTag = "QuestionTeamRerollUsage" ∨
      parsed.rootTag = "ResultTeamRerollUsage" then
    [{ type := "reroll", sourceTag := parsed.rootTag, stepType := stepType,
       playerId := playerId, targetId := targetId, teamId := teamId,
       gamerId := gamerId }]
  else []) ++
  ((if parsed.rootTag = "ResultInjuryRoll" ∨ parsed.rootTag = "ResultCasualtyRoll" ∨
      parsed.rootTag = "ResultPlayerRemoval" then
    [{ type := "casualty", sourceTag := parsed.rootTag, stepType := stepType,
       playerId := playerId, targetId := targetId, teamId := teamId,
       gamerId := gamerId }]
  else []) ++
  (if parsed.rootTag = "BallStep" ∨ parsed.rootTag = "ResultTouchBack" then
    [{ type := "ball_state", sourceTag := parsed.rootTag, stepType := stepType,
       playerId := playerId, targetId := targetId, teamId := teamId,
       gamerId := gamerId }]
  else [])))))

/-- `collectSequenceEvents` of the parser source: decode the optional
step fragment (a `BallStep` step root emits a ball_state event from the
step context), then map each decoded result fragment through the fixed
table. -/
def collectSequenceEvents (o : ParserOracles) (block : String) :
    List ReplayEvent :=
  let stepDecodedXml :=
    match o.stepMessageDataOf block with
    | some messageData => o.decodeBase64Chain messageData
    | none => ""
  let stepParsed :=
    if startsWithStr stepDecodedXml "<" then o.parseFragment stepDecodedXml
    else none
  let stepPayload :=
    match stepParsed with
    | some frag => if frag.rootTag = "" then none else some frag
    | none => none
  let sequenceContext : SequenceContext :=
    { stepType := stepPayload.bind (fun f => f.stepType)
      playerId := stepPayload.bind (fun f => f.playerId)
      targetId := stepPayload.bind (fun f => f.targetId)
      teamId := stepPayload.bind (fun f => f.teamId)
      gamerId := stepPayload.bind (fun f => f.gamerId) }
  let stepEvents :=
    match stepParsed with
    | some frag =>
      if frag.rootTag = "BallStep" then
        [{ type := "ball_state", sourceTag := "BallStep",
           stepType := sequenceContext.stepType,
           playerId := sequenceContext.playerId,
           targetId := sequenceContext.targetId,
           teamId := sequenceContext.teamId,
           gamerId := sequenceContext.gamerId }]
      else []
    | none => []
  stepEvents ++
    (o.resultMessageDataOf block).flatMap (fun messageData =>
      let decodedXml := o.decodeBase64Chain messageData
      if !startsWithStr decodedXml "<" then []
      else
        match o.parseFragment decodedXml with
        | none => []
        | some parsed =>
          if parsed.rootTag = "" then []
          else resultEventsFor sequenceContext parsed)

/-- `buildTurn` of the parser source: every new turn starts with no
carrier, no turnover flag and no events. -/
def buildTurn (turnNumber : Nat) (gamerId : Option String) : ReplayTurn :=
  { turnNumber := turnNumber
    teamId := none
    gamerId := gamerId
    ballCarrierPlayerId := none
    possibleTurnover := false
    endTurnReason := none
    finishingTurnType := none
    events := []
    actionTexts := []
    eventCount := 0
    raw := "" }

/-- The compact raw snapshot `finalizeTurn` attaches — the serialized
`{ gamerId, endTurnReason, finishingTurnType }` object, opaque to every
embedded consumer, serialized deterministically here. -/
def rawSnapshot (gamerId : Option String)
    (endTurnReason finishingTurnType : Option Int) : String :=
  "gamerId:" ++ (match gamerId with | some g => g | none => "undefined") ++
    " endTurnReason:" ++
    (match endTurnReason with | some r => Int.repr r | none => "undefined") ++
    " finishingTurnType:" ++
    (match finishingTurnType with | some t => Int.repr t | none => "undefined")

/-- `finalizeTurn` of the parser source: deduplicated lowercase
action-text tokens from the event type/tag pairs, the event count and
the raw snapshot. -/
def finalizeTurn (turn : ReplayTurn) : ReplayTurn :=
  let actionTexts :=
    (turn.events.flatMap (fun event => [event.type, event.sourceTag])).map
      (fun value => String.mk (value.data.map Char.toLower))
  { turn with
    actionTexts := actionTexts.eraseDups
    eventCount := turn.events.length
    raw := rawSnapshot turn.gamerId turn.endTurnReason turn.finishingTurnType }

/-- `applySequenceEventsToTurn` of the parser source: append the
block's events, and backfill a falsy team / gamer id from the first new
event carrying one (`find` tests `!== undefined`, the assignment itself
is unguarded). -/
def applySequenceEventsToTurn (turn : ReplayTurn) (events : List ReplayEvent) :
    ReplayTurn :=
  if events.isEmpty then turn
  else
    { turn with
      events := turn.events ++ events
      teamId :=
        if strTruthy turn.teamId then turn.teamId
        else (events.find? (fun event => event.teamId ≠ none)).bind
          (fun event => event.teamId)
      gamerId :=
        if strTruthy turn.gamerId then turn.gamerId
        else (events.find? (fun event => event.gamerId ≠ none)).bind
          (fun event => event.gamerId) }

/-- The current turn as the end-turn branch of the scan loop leaves it
just before finalizing: reason and finishing-type codes recorded, and,
when a reason other than 1 is present, the turnover flag raised and the
synthetic turnover event appended. -/
def endTurnRecordedTurn (o : ParserOracles) (turn : ReplayTurn) (body : String) :
    ReplayTurn :=
  let reason := o.matchReason body
  let finishingTurnType := o.matchFinishingTurnType body
  let turn1 :=
    { turn with endTurnReason := reason, finishingTurnType := finishingTurnType }
  match reason with
  | some r =>
    if r ≠ 1 then
      { turn1 with
        possibleTurnover := true
        events := turn1.events ++
          [{ type := "turnover", sourceTag := "EventEndTurn",
             reasonCode := some r, finishingTurnType := finishingTurnType }] }
    else turn1
  | none => turn1

/-- Whether an event's `type` string is a member of the `ReplayEventType`
union. -/
def eventTypeOk (e : ReplayEvent) : Bool :=
  decide (e.type ∈ replayEventTypeNames)

/-- The scan loop's mutable state. -/
structure ScanState where
  turns : List ReplayTurn
  activeGamerId : Option String
  currentTurn : ReplayTurn
  foundStructuredData : Bool
deriving Repr, DecidableEq

/-- The loop entry state. -/
def initScanState : ScanState :=
  { turns := [], activeGamerId := none, currentTurn := buildTurn 1 none,
    foundStructuredData := false }

/-- One iteration of the scan loop of
`extractStructuredTurnsFromReplayXml` on one `(tag, body)` token.  An
active-gamer change updates the carried gamer id (and a turn still
lacking one); a Carrier token whose trimmed payload is neither empty
nor "-1" sets the current turn's carrier and appends a ball_state
event — empty and "-1" payloads change nothing; a sequence block
appends its collected events; an end-turn token records the reason and
finishing-type codes, flags a turnover and appends the synthetic
turnover event when the reason is present and ≠ 1, finalizes the turn
and opens the next with a fresh (unset) carrier.  The regex only emits
the four tags, so the final fallthrough is unreachable on real scans. -/
def processToken (o : ParserOracles) (s : ScanState) (token : String × String) :
    ScanState :=
  let tag := token.1
  let body := token.2
  if tag = "EventActiveGamerChanged" then
    let s2 :=
      match o.matchNewActiveGamer body with
      | some newGamer =>
        if newGamer ≠ "" then
          { s with
            activeGamerId := some newGamer
            currentTurn :=
              if strTruthy s.currentTurn.gamerId then s.currentTurn
              else { s.currentTurn with gamerId := some newGamer } }
        else s
      | none => s
    { s2 with foundStructuredData := true }
  else if tag = "Carrier" then
    let carrierId := jsTrim body
    let s2 :=
      if carrierId ≠ "" ∧ carrierId ≠ "-1" then
        { s with
          currentTurn :=
            { s.currentTurn with
              ballCarrierPlayerId := some carrierId
              events := s.currentTurn.events ++
                [{ type := "ball_state", sourceTag := "Carrier",
                   playerId := some carrierId }] } }
      else s
    { s2 with foundStructuredData := true }
  else if tag = "EventExecuteSequence" then
    { s with
      currentTurn :=
        applySequenceEventsToTurn s.currentTurn (collectSequenceEvents o body)
      foundStructuredData := true }
  else if tag = "EventEndTurn" then
    { s with
      turns := s.turns ++ [finalizeTurn (endTurnRecordedTurn o s.currentTurn body)]
      currentTurn := buildTurn (s.currentTurn.turnNumber + 1) s.activeGamerId
      foundStructuredData := true }
  else s

/-- `extractStructuredTurnsFromReplayXml` of the parser source, as a
function of the scanned token stream: fold the loop, flush a trailing
turn that still holds events or a truthy carrier, and return nothing
unless some structural token was recognized. -/
def extractStructuredTurnsFromReplayXml (o : ParserOracles)
    (tokens : List (String × String)) : List ReplayTurn :=
  let s := tokens.foldl (processToken o) initScanState
  let turns :=
    if 0 < s.currentTurn.events.length || strTruthy s.currentTurn.ballCarrierPlayerId then
      s.turns ++ [finalizeTurn s.currentTurn]
    else s.turns
  if s.foundStructuredData then turns else []

/-- The number of end-turn tokens in a scan. -/
def countEndTurnTokens (tokens : List (String × String)) : Nat :=
  tokens.countP (fun token => token.1 = "EventEndTurn")

/-- Oracles whose every host call fails or is the identity, for
concrete scans that never consult them. -/
def trivialParserOracles : ParserOracles :=
  { stepMessageDataOf := fun _ => none
    resultMessageDataOf := fun _ => []
    decodeBase64Chain := fun s => s
    parseFragment := fun _ => none
    matchNewActiveGamer := fun _ => none
    matchReason := fun _ => none
    matchFinishingTurnType := fun _ => none }

/-- Oracles whose reason matcher always finds the code 2. -/
def endTurnReason2Oracles : ParserOracles :=
  { trivialParserOracles with matchReason := fun _ => some 2 }

/-! ## Theorems -/

/-- C10: every `TimelineTurn` produced by `buildTimeline` has
`rawEventCount` equal to the maximum of the source turn's `eventCount`
and 1; in particular it is always at least 1, so a turn with zero events
is reported with a raw event count of 1. -/
theorem c10_buildTimeline_rawEventCount (stringifyLower : String → String)
    (matchCount : String → String → Nat) (replay : ReplayModel) :
    (buildTimeline stringifyLower matchCount replay).map (fun t => t.rawEventCount) =
      replay.turns.map (fun turn => max turn.eventCount 1) ∧
    ∀ t ∈ buildTimeline stringifyLower matchCount replay, 1 ≤ t.rawEventCount := by
  constructor
  · simp [buildTimeline, List.map_map]
  · intro t ht
    simp only [buildTimeline, List.mem_map] at ht
    obtain ⟨turn, _, rfl⟩ := ht
    exact Nat.le_max_right turn.eventCount 1

/-- Witness for C10 at a one-turn replay with zero events: the reported
raw event count is at least 1. -/
theorem c10_witness :
    (1 : Nat) ≤ (TimelineTurn.mk 1 none 1
      { turnover := 0, reroll := 0, blitz := 0, dodge := 0, block := 0 }).rawEventCount :=
  (c10_buildTimeline_rawEventCount (fun s => s) (fun _ _ => 0)
    { turns := [{ turnNumber := 1 }] }).2
    (TimelineTurn.mk 1 none 1
      { turnover := 0, reroll := 0, blitz := 0, dodge := 0, block := 0 })
    (by decide)

/-- The format tag `decodeReplayInput` attaches on success. -/
def decodedFormat (input : String) : String :=
  if xmlStartPattern (jsTrim input) then "xml" else "bbr"

/-- When decoding fails, `decodeReplayInput` reports empty input or
unsupported content, whatever the cap. -/
theorem decodeReplayInput_of_none (decodeCompressedBase64 : String → Option String)
    (input : String) (cap : Option Nat)
    (hdec : decodedTextOf decodeCompressedBase64 input = none) :
    decodeReplayInput decodeCompressedBase64 input cap =
      .error (if (jsTrim input).length = 0 then .emptyInput else .notValidContent) := by
  revert hdec
  simp only [decodeReplayInput, decodedTextOf]
  by_cases h0 : (jsTrim input).length = 0
  · simp [h0]
  · by_cases hx : xmlStartPattern (jsTrim input)
    · simp [h0, hx]
    · cases hd : decodeCompressedBase64 (jsTrim input) with
      | none => simp [h0, hx, hd]
      | some d =>
        by_cases hde : d = ""
        · simp [h0, hx, hd, hde]
        · simp [h0, hx, hd, hde]

/-- With no cap configured, a successful decode is returned whole. -/
theorem decodeReplayInput_of_some_none (decodeCompressedBase64 : String → Option String)
    (input : String) (s : String)
    (hdec : decodedTextOf decodeCompressedBase64 input = some s) :
    decodeReplayInput decodeCompressedBase64 input none =
      .ok { xml := s, format := decodedFormat input } := by
  revert hdec
  simp only [decodeReplayInput, decodedTextOf, decodedFormat]
  by_cases h0 : (jsTrim input).length = 0
  · simp [h0]
  · by_cases hx : xmlStartPattern (jsTrim input)
    · simp [h0, hx]
    · cases hd : decodeCompressedBase64 (jsTrim input) with
      | none => simp [h0, hx, hd]
      | some d =>
        by_cases hde : d = ""
        · simp [h0, hx, hd, hde]
        · simp [h0, hx, hd, hde]

/-- With a cap `m` configured, a successful decode is returned whole
unless the cap is truthy and strictly exceeded. -/
theorem decodeReplayInput_of_some_some (decodeCompressedBase64 : String → Option String)
    (input : String) (s : String) (m : Nat)
    (hdec : decodedTextOf decodeCompressedBase64 input = some s) :
    decodeReplayInput decodeCompressedBase64 input (some m) =
      if m ≠ 0 && m < s.length then .error (.tooLarge m)
      else .ok { xml := s, format := decodedFormat input } := by
  revert hdec
  simp only [decodeReplayInput, decodedTextOf, decodedFormat]
  by_cases h0 : (jsTrim input).length = 0
  · simp [h0]
  · by_cases hx : xmlStartPattern (jsTrim input)
    · simp [h0, hx]
      intro h
      subst h
      rfl
    · cases hd : decodeCompressedBase64 (jsTrim input) with
      | none => simp [h0, hx, hd]
      | some d =>
        by_cases hde : d = ""
        · simp [h0, hx, hd, hde]
        · simp [h0, hx, hd, hde]
          intro h
          subst h
          rfl

/-- C7: whenever decoding succeeds with text of length strictly above a
configured positive cap, `decodeReplayInput` fails with the validation
error that names the cap, and returns no decoded result. -/
theorem c7_decode_tooLarge (decodeCompressedBase64 : String → Option String)
    (input : String) (m : Nat) (s : String)
    (hm : 0 < m)
    (hdec : decodedTextOf decodeCompressedBase64 input = some s)
    (hlen : m < s.length) :
    decodeReplayInput decodeCompressedBase64 input (some m) =
      .error (.tooLarge m) ∧
    (ReplayValidationError.tooLarge m).message =
      "Replay XML is too large after decode. Max size is " ++
        Nat.repr m ++ " characters." := by
  refine ⟨?_, rfl⟩
  rw [decodeReplayInput_of_some_some decodeCompressedBase64 input s m hdec]
  rw [if_pos (by simp [Nat.pos_iff_ne_zero.mp hm, hlen])]

/-- Witness for C7: a literal XML input of length 8 with a cap of 3 is
rejected with the error naming the cap. -/
theorem c7_witness :
    decodeReplayInput (fun _ => none) "<Replay>" (some 3) =
      .error (.tooLarge 3) ∧
    (ReplayValidationError.tooLarge 3).message =
      "Replay XML is too large after decode. Max size is " ++
        Nat.repr 3 ++ " characters." :=
  c7_decode_tooLarge (fun _ => none) "<Replay>" 3 "<Replay>"
    (by decide) (by decide) (by decide)

/-- C9: the size check applies only to a truthy cap — the too-large
error appears exactly when a nonzero cap is configured and the decoded
length strictly exceeds it, and with the cap unset or zero every
successful decode is returned whole. -/
theorem c9_decode_capTruthiness (decodeCompressedBase64 : String → Option String)
    (input : String) (cap : Option Nat) :
    ((∃ m, decodeReplayInput decodeCompressedBase64 input cap =
        .error (.tooLarge m)) ↔
      (∃ s m, decodedTextOf decodeCompressedBase64 input = some s ∧
        cap = some m ∧ m ≠ 0 ∧ m < s.length)) ∧
    ((cap = none ∨ cap = some 0) →
      ∀ s, decodedTextOf decodeCompressedBase64 input = some s →
        ∃ fmt, decodeReplayInput decodeCompressedBase64 input cap =
          .ok { xml := s, format := fmt }) := by
  constructor
  · cases hdec : decodedTextOf decodeCompressedBase64 input with
    | none =>
      constructor
      · rintro ⟨m, hm⟩
        rw [decodeReplayInput_of_none decodeCompressedBase64 input cap hdec] at hm
        by_cases h0 : (jsTrim input).length = 0 <;> simp [h0] at hm
      · rintro ⟨s, m, hs, _⟩
        exact Option.noConfusion hs
    | some s =>
      cases cap with
      | none =>
        constructor
        · rintro ⟨m, hm⟩
          rw [decodeReplayInput_of_some_none decodeCompressedBase64 input s hdec] at hm
          exact absurd hm (by simp)
        · rintro ⟨s2, m, hs, hcap, _⟩
          exact Option.noConfusion hcap
      | some k =>
        constructor
        · rintro ⟨m, hm⟩
          rw [decodeReplayInput_of_some_some decodeCompressedBase64 input s k hdec] at hm
          by_cases hk : k ≠ 0 ∧ k < s.length
          · rw [if_pos (by simp [hk.1, hk.2])] at hm
            obtain rfl : k = m := by
              injection hm with h
              injection h
            exact ⟨s, k, rfl, rfl, hk.1, hk.2⟩
          · rw [if_neg (by simpa using hk)] at hm
            exact absurd hm (by simp)
        · rintro ⟨s2, m, hs, hcap, hm0, hmlen⟩
          have hs2 : s2 = s := (Option.some.inj hs).symm
          have hkm : k = m := Option.some.inj hcap
          refine ⟨m, ?_⟩
          rw [hkm, decodeReplayInput_of_some_some decodeCompressedBase64 input s m hdec]
          rw [if_pos (by simp [hm0, hs2 ▸ hmlen])]
  · rintro (rfl | rfl) s hdec
    · exact ⟨decodedFormat input,
        decodeReplayInput_of_some_none decodeCompressedBase64 input s hdec⟩
    · refine ⟨decodedFormat input, ?_⟩
      rw [decodeReplayInput_of_some_some decodeCompressedBase64 input s 0 hdec]
      simp

/-- Witness for C9: with the cap set to 0, a decoded replay of positive
length is accepted. -/
theorem c9_witness :
    ∃ fmt, decodeReplayInput (fun _ => none) "<Replay>" (some 0) =
      .ok { xml := "<Replay>", format := fmt } :=
  (c9_decode_capTruthiness (fun _ => none) "<Replay>" (some 0)).2
    (Or.inr rfl) "<Replay>" (by decide)

/-- `limitFindingsGo` keeps a sub-sequence of its input, so retained
findings stay in generation order. -/
theorem limitFindingsGo_sublist (maxByCategory : Nat) (fs : List AnalysisFinding) :
    ∀ byCategory : String → Nat,
      (limitFindingsGo maxByCategory fs byCategory).Sublist fs := by
  induction fs with
  | nil => intro byCategory; simp [limitFindingsGo]
  | cons f rest ih =>
    intro byCategory
    simp only [limitFindingsGo]
    by_cases h : maxByCategory ≤ byCategory f.category
    · rw [if_pos h]
      exact (ih byCategory).cons f
    · rw [if_neg h]
      exact (ih _).cons₂ f

/-- `limitFindingsGo` admits at most `maxByCategory - byCategory c` more
findings of category `c`. -/
theorem limitFindingsGo_countP (maxByCategory : Nat) (c : String)
    (fs : List AnalysisFinding) :
    ∀ byCategory : String → Nat,
      (limitFindingsGo maxByCategory fs byCategory).countP
          (fun f => f.category = c) ≤
        maxByCategory - byCategory c := by
  induction fs with
  | nil => intro byCategory; simp [limitFindingsGo]
  | cons f rest ih =>
    intro byCategory
    simp only [limitFindingsGo]
    by_cases h : maxByCategory ≤ byCategory f.category
    · rw [if_pos h]
      exact ih byCategory
    · rw [if_neg h]
      rw [List.countP_cons]
      by_cases hc : f.category = c
      · subst hc
        have hlt : byCategory f.category < maxByCategory := by omega
        have h2 := ih (fun x =>
          if x = f.category then byCategory f.category + 1 else byCategory x)
        simp at h2 ⊢
        omega
      · have h2 := ih (fun x =>
          if x = f.category then byCategory f.category + 1 else byCategory x)
        have hne : ¬(c = f.category) := fun hcc => hc hcc.symm
        simp only [if_neg hne] at h2
        simp only [decide_eq_true_eq, if_neg hc]
        omega

/-- At most `maxByCategory` findings per category survive
`limitFindings`. -/
theorem limitFindings_countP (fs : List AnalysisFinding) (maxByCategory : Nat)
    (c : String) :
    (limitFindings fs maxByCategory).countP (fun f => f.category = c) ≤
      maxByCategory := by
  have := limitFindingsGo_countP maxByCategory c fs (fun _ => 0)
  simpa [limitFindings] using this

/-- `limitFindings` preserves generation order. -/
theorem limitFindings_sublist (fs : List AnalysisFinding) (maxByCategory : Nat) :
    (limitFindings fs maxByCategory).Sublist fs :=
  limitFindingsGo_sublist maxByCategory fs (fun _ => 0)

/-- A team context with neither offense nor defense mode. -/
def ctxMixed : TeamContext := { mode := "mixed" }

/-- A turn flagged as a turnover with no events, for exercising
`evaluateTurnoverCause`. -/
def turnoverTurn (n : Nat) : ReplayTurn :=
  { turnNumber := n, possibleTurnover := true }

/-- Eight turnover turns: every one triggers the turnover-cause rule. -/
def replay8Turnover : ReplayModel :=
  { turns := (List.range 8).map (fun i => turnoverTurn (i + 1)) }

/-- A carrier-bearing turn, for exercising `evaluateBallSafety`. -/
def carrierTurn (n : Nat) (c : String) : ReplayTurn :=
  { turnNumber := n, ballCarrierPlayerId := some c }

/-- Nine turns whose carrier alternates, producing eight carrier
changes. -/
def replay9Carriers : ReplayModel :=
  { turns := (List.range 9).map (fun i =>
      carrierTurn (i + 1) (if i % 2 = 0 then "A" else "B")) }

/-- A turn with a dodge before the first ball-state event: it triggers
the action-ordering rule. -/
def actionOrderTurn (n : Nat) : ReplayTurn :=
  { turnNumber := n
    events :=
      [{ type := "dodge", sourceTag := "ResultRoll" },
       { type := "ball_state", sourceTag := "BallStep" }] }

/-- Eight turns all triggering the action-ordering rule. -/
def replay8ActionOrdering : ReplayModel :=
  { turns := (List.range 8).map (fun i => actionOrderTurn (i + 1)) }

/-- C2 counterexample: `evaluateTurnoverCause` and `evaluateBallSafety`
do not cap their findings at 6 per category — eight all-triggering turns
keep all eight findings. -/
theorem c2_counterexample :
    ((evaluateTurnoverCause replay8Turnover ctxMixed).filter
        (fun f => f.category = "turnover_cause")).length = 8 ∧
    ((evaluateBallSafety replay9Carriers ctxMixed).filter
        (fun f => f.category = "ball_safety")).length = 8 := by
  constructor <;> rfl

/-- C2 (amended): the action-ordering, reroll-timing, cage-safety,
screen-lanes, blitz-value and foul-timing evaluators apply the
per-category cap of 6 after generation and preserve generation order
(their output is a sub-sequence of the generated findings); eight turns
all triggering the action-ordering rule yield exactly 6 findings.  The
turnover-cause and ball-safety evaluators return their findings without
the cap. -/
theorem c2_per_category_cap :
    (∀ (replay : ReplayModel) (context : TeamContext) (c : String),
      ((evaluateActionOrdering replay context).countP (fun f => f.category = c) ≤ 6) ∧
      ((evaluateRerollTiming replay context).countP (fun f => f.category = c) ≤ 6) ∧
      ((evaluateCageSafety replay context).countP (fun f => f.category = c) ≤ 6) ∧
      ((evaluateScreenLanes replay context).countP (fun f => f.category = c) ≤ 6) ∧
      ((evaluateBlitzValue replay context).countP (fun f => f.category = c) ≤ 6) ∧
      ((evaluateFoulTiming replay context).countP (fun f => f.category = c) ≤ 6)) ∧
    (∀ (replay : ReplayModel) (context : TeamContext),
      (evaluateActionOrdering replay context).Sublist
        (actionOrderingFindings replay context) ∧
      (evaluateRerollTiming replay context).Sublist
        (rerollTimingFindings replay context) ∧
      (evaluateCageSafety replay context).Sublist
        (cageSafetyFindings replay context) ∧
      (evaluateScreenLanes replay context).Sublist (screenLanesFindings replay) ∧
      (evaluateBlitzValue replay context).Sublist
        (blitzValueFindings replay context) ∧
      (evaluateFoulTiming replay context).Sublist
        (foulTimingFindings replay context)) ∧
    (∀ (replay : ReplayModel) (context : TeamContext),
      evaluateTurnoverCause replay context = turnoverCauseFindings replay context ∧
      evaluateBallSafety replay context = ballSafetyGo context replay.turns none) ∧
    (evaluateActionOrdering replay8ActionOrdering ctxMixed).length = 6 := by
  refine ⟨?_, ?_, ?_, ?_⟩
  · intro replay context c
    refine ⟨limitFindings_countP _ _ _, limitFindings_countP _ _ _,
      limitFindings_countP _ _ _, ?_, limitFindings_countP _ _ _,
      limitFindings_countP _ _ _⟩
    by_cases h : context.mode = "offense"
    · simp [evaluateScreenLanes, h]
    · simp only [evaluateScreenLanes, if_neg h]
      exact limitFindings_countP _ _ _
  · intro replay context
    refine ⟨limitFindings_sublist _ _, limitFindings_sublist _ _,
      limitFindings_sublist _ _, ?_, limitFindings_sublist _ _,
      limitFindings_sublist _ _⟩
    by_cases h : context.mode = "offense"
    · simp [evaluateScreenLanes, h]
    · simp only [evaluateScreenLanes, if_neg h]
      exact limitFindings_sublist _ _
  · intro replay context
    exact ⟨rfl, rfl⟩
  · rfl

/-! ## Ball-safety characterization (C6) -/

/-- The last JS-truthy ball carrier over a list of turns, starting from
`init` — the value `previousCarrier` holds after those turns. -/
def lastTruthyCarrier (init : Option String) (ts : List ReplayTurn) : Option String :=
  ts.foldl (fun acc t =>
    if strTruthy t.ballCarrierPlayerId then t.ballCarrierPlayerId else acc) init

/-- The ball-safety firing guard on a carrier and the previous carrier:
both JS-truthy and different. -/
def carrierFireCond : Option String → Option String → Bool
  | some c, some p => c ≠ "" && p ≠ "" && c ≠ p
  | _, _ => false

/-- The finding `evaluateBallSafety` pushes for turn `t` against the
previous carrier `prev`, when the guard fires. -/
def ballSafetyFindingOpt (context : TeamContext) (prev : Option String)
    (t : ReplayTurn) : Option AnalysisFinding :=
  match t.ballCarrierPlayerId, prev with
  | some c, some p =>
    if c ≠ "" && p ≠ "" && c ≠ p then some (ballSafetyFinding context t p c)
    else none
  | _, _ => none

/-- Whether the turn at index `i` fires the ball-safety rule: it bears a
truthy carrier differing from the most recent truthy carrier of the
preceding turns (seeded by `prev`). -/
def carrierChangeFrom (prev : Option String) (ts : List ReplayTurn) (i : Nat) : Bool :=
  match ts.drop i with
  | [] => false
  | t :: _ => carrierFireCond t.ballCarrierPlayerId (lastTruthyCarrier prev (ts.take i))

/-- The ball-safety finding the turn at index `i` contributes, if any. -/
def ballSafetyFindingAt (context : TeamContext) (prev : Option String)
    (ts : List ReplayTurn) (i : Nat) : Option AnalysisFinding :=
  match ts.drop i with
  | [] => none
  | t :: _ => ballSafetyFindingOpt context (lastTruthyCarrier prev (ts.take i)) t

/-- One step of the `evaluateBallSafety` loop, via
`ballSafetyFindingOpt`. -/
theorem ballSafetyGo_cons (context : TeamContext) (t : ReplayTurn)
    (rest : List ReplayTurn) (prev : Option String) :
    ballSafetyGo context (t :: rest) prev =
      (ballSafetyFindingOpt context prev t).toList ++
        ballSafetyGo context rest
          (if strTruthy t.ballCarrierPlayerId then t.ballCarrierPlayerId else prev) := by
  simp only [ballSafetyGo, ballSafetyFindingOpt]
  rcases hct : t.ballCarrierPlayerId with _ | c <;> rcases prev with _ | p <;> simp
  split <;> simp

/-- The guard and the optional finding agree. -/
theorem ballSafetyFindingOpt_isSome (context : TeamContext) (prev : Option String)
    (t : ReplayTurn) :
    (ballSafetyFindingOpt context prev t).isSome =
      carrierFireCond t.ballCarrierPlayerId prev := by
  simp only [ballSafetyFindingOpt, carrierFireCond]
  rcases t.ballCarrierPlayerId with _ | c <;> rcases prev with _ | p <;> simp
  split <;> simp_all

/-- The `evaluateBallSafety` loop equals the index-based
characterization: one finding per turn whose truthy carrier differs from
the most recent preceding truthy carrier. -/
theorem ballSafetyGo_eq (context : TeamContext) :
    ∀ (ts : List ReplayTurn) (prev : Option String),
      ballSafetyGo context ts prev =
        ((List.range ts.length).filter (carrierChangeFrom prev ts)).filterMap
          (ballSafetyFindingAt context prev ts) := by
  intro ts
  induction ts with
  | nil => intro prev; rfl
  | cons t rest ih =>
    intro prev
    have hcomp : (carrierChangeFrom prev (t :: rest)) ∘ Nat.succ =
        carrierChangeFrom
          (if strTruthy t.ballCarrierPlayerId then t.ballCarrierPlayerId else prev)
          rest :=
      funext fun i => rfl
    have hcompg : (ballSafetyFindingAt context prev (t :: rest)) ∘ Nat.succ =
        ballSafetyFindingAt context
          (if strTruthy t.ballCarrierPlayerId then t.ballCarrierPlayerId else prev)
          rest :=
      funext fun i => rfl
    have htail :
        List.filterMap (ballSafetyFindingAt context prev (t :: rest))
          (List.filter (carrierChangeFrom prev (t :: rest))
            ((List.range rest.length).map Nat.succ)) =
        ballSafetyGo context rest
          (if strTruthy t.ballCarrierPlayerId then t.ballCarrierPlayerId else prev) := by
      rw [List.filter_map, List.filterMap_map, hcomp, hcompg, ih]
    have hzero : carrierChangeFrom prev (t :: rest) 0 =
        carrierFireCond t.ballCarrierPlayerId prev := rfl
    have hzerog : ballSafetyFindingAt context prev (t :: rest) 0 =
        ballSafetyFindingOpt context prev t := rfl
    rw [ballSafetyGo_cons, List.length_cons, List.range_succ_eq_map,
      List.filter_cons, hzero]
    cases hopt : ballSafetyFindingOpt context prev t with
    | none =>
      have hcond : carrierFireCond t.ballCarrierPlayerId prev = false := by
        rw [← ballSafetyFindingOpt_isSome context prev t, hopt]
        rfl
      rw [hcond]
      simp only [Bool.false_eq_true, if_false]
      rw [htail]
      simp
    | some f =>
      have hcond : carrierFireCond t.ballCarrierPlayerId prev = true := by
        rw [← ballSafetyFindingOpt_isSome context prev t, hopt]
        rfl
      rw [hcond]
      simp only [if_true]
      rw [List.filterMap_cons, hzerog, hopt, htail]
      simp

/-- The quantity the claim ties the ball-safety findings to, written
from the claim's words: pairs of two consecutive turns that both have a
nonempty ball carrier and whose carriers differ. -/
def consecutiveCarrierChangePairs (ts : List ReplayTurn) : Nat :=
  (ts.zip ts.tail).countP (fun pair =>
    strTruthy pair.1.ballCarrierPlayerId && strTruthy pair.2.ballCarrierPlayerId &&
      pair.1.ballCarrierPlayerId ≠ pair.2.ballCarrierPlayerId)

/-- Carrier on turn 1, no carrier on turn 2, a different carrier on
turn 3: no two consecutive turns both bear a carrier. -/
def replayGapCarrier : ReplayModel :=
  { turns := [{ turnNumber := 1, ballCarrierPlayerId := some "A" },
              { turnNumber := 2 },
              { turnNumber := 3, ballCarrierPlayerId := some "B" }] }

/-- C6 counterexample: `evaluateBallSafety` emits a finding on turn 3 of
`replayGapCarrier` even though no pair of consecutive turns both bears a
carrier — the rule compares against the most recent carrier-bearing
turn, not the immediately preceding turn. -/
theorem c6_counterexample :
    (evaluateBallSafety replayGapCarrier ctxMixed).length = 1 ∧
    consecutiveCarrierChangePairs replayGapCarrier.turns = 0 := by
  constructor <;> rfl

/-- C6 (amended): `evaluateBallSafety` emits exactly one medium-severity
finding for each turn whose truthy (nonempty) ball carrier differs from
the carrier of the most recent earlier carrier-bearing turn; the first
carrier-bearing turn and turns without a carrier never produce a
finding. -/
theorem c6_ball_safety_characterization :
    (∀ (replay : ReplayModel) (context : TeamContext),
      evaluateBallSafety replay context =
        ((List.range replay.turns.length).filter
            (carrierChangeFrom none replay.turns)).filterMap
          (ballSafetyFindingAt context none replay.turns)) ∧
    (∀ (context : TeamContext) (t : ReplayTurn) (p c : String),
      (ballSafetyFinding context t p c).severity = "medium") := by
  constructor
  · intro replay context
    exact ballSafetyGo_eq context replay.turns none
  · intro context t p c
    rfl

/-! ## Team attribution lemmas (C4) -/

/-- `Map.get` over a cons. -/
theorem mapGet_cons (e : String × String) (m : List (String × String)) (p : String) :
    mapGet (e :: m) p = if e.1 = p then some e.2 else mapGet m p := by
  simp only [mapGet, List.find?_cons]
  by_cases h : e.1 = p
  · simp [h]
  · simp [h]

/-- Deleting a key erases exactly that key's binding. -/
theorem mapGet_mapDelete (m : List (String × String)) (k p : String) :
    mapGet (mapDelete m k) p = if p = k then none else mapGet m p := by
  induction m with
  | nil => by_cases h : p = k <;> simp [mapGet, mapDelete, h]
  | cons e rest ih =>
    by_cases hek : e.1 = k
    · have hstep : mapDelete (e :: rest) k = mapDelete rest k := by
        simp [mapDelete, List.filter_cons, hek]
      rw [hstep, ih]
      by_cases hpk : p = k
      · rw [if_pos hpk, if_pos hpk]
      · rw [if_neg hpk, if_neg hpk, mapGet_cons]
        rw [if_neg (by rw [hek]; exact fun hkp => hpk hkp.symm)]
    · have hstep : mapDelete (e :: rest) k = e :: mapDelete rest k := by
        simp [mapDelete, List.filter_cons, hek]
      rw [hstep, mapGet_cons, mapGet_cons, ih]
      by_cases hep : e.1 = p
      · rw [if_pos hep, if_pos hep]
        rw [if_neg (fun hpk2 => hek (hep.trans hpk2))]
      · rw [if_neg hep, if_neg hep]

/-- Updating key `k` in place leaves lookups of other keys unchanged. -/
theorem mapGet_map_update (m : List (String × String)) (k v p : String)
    (hpk : p ≠ k) :
    mapGet (m.map (fun e => if e.1 = k then (k, v) else e)) p = mapGet m p := by
  induction m with
  | nil => rfl
  | cons e rest ih =>
    rw [List.map_cons, mapGet_cons, mapGet_cons]
    by_cases h1 : e.1 = k
    · rw [if_pos h1]
      rw [if_neg (show ¬((k, v).1 = p) from fun h => hpk h.symm)]
      rw [if_neg (fun hep => hpk ((h1.symm.trans hep).symm))]
      exact ih
    · rw [if_neg h1]
      by_cases hep : e.1 = p
      · rw [if_pos hep, if_pos hep]
      · rw [if_neg hep, if_neg hep]
        exact ih

/-- Appending a fresh binding for `k` leaves other lookups unchanged. -/
theorem mapGet_append_single (m : List (String × String)) (k v p : String)
    (hpk : p ≠ k) :
    mapGet (m ++ [(k, v)]) p = mapGet m p := by
  induction m with
  | nil =>
    rw [List.nil_append, mapGet_cons]
    rw [if_neg (show ¬((k, v).1 = p) from fun h => hpk h.symm)]
  | cons e rest ih =>
    rw [List.cons_append, mapGet_cons, mapGet_cons]
    by_cases hep : e.1 = p
    · rw [if_pos hep, if_pos hep]
    · rw [if_neg hep, if_neg hep]
      exact ih

/-- Setting key `k` makes lookup of `k` return the new value. -/
theorem mapGet_mapSet_self (m : List (String × String)) (k v : String) :
    mapGet (mapSet m k v) k = some v := by
  unfold mapSet
  by_cases hany : (m.any (fun x => x.1 = k)) = true
  · rw [if_pos hany]
    induction m with
    | nil => simp at hany
    | cons e rest ih =>
      rw [List.map_cons, mapGet_cons]
      by_cases h1 : e.1 = k
      · rw [if_pos h1]
        rw [if_pos rfl]
      · rw [if_neg h1]
        rw [if_neg h1]
        exact ih (by simpa [List.any_cons, h1] using hany)
  · rw [if_neg hany]
    induction m with
    | nil =>
      rw [List.nil_append, mapGet_cons]
      rw [if_pos rfl]
    | cons e rest ih =>
      rw [List.cons_append, mapGet_cons]
      have h1 : ¬(e.1 = k) := by
        intro h
        exact hany (by simp [List.any_cons, h])
      rw [if_neg h1]
      exact ih (by
        intro h2
        exact hany (by simp [List.any_cons]; right; simpa using h2))

/-- Setting key `k` leaves lookups of other keys unchanged. -/
theorem mapGet_mapSet_ne (m : List (String × String)) (k v p : String)
    (hpk : p ≠ k) :
    mapGet (mapSet m k v) p = mapGet m p := by
  unfold mapSet
  by_cases hany : (m.any (fun x => x.1 = k)) = true
  · rw [if_pos hany]
    exact mapGet_map_update m k v p hpk
  · rw [if_neg hany]
    exact mapGet_append_single m k v p hpk

/-- The team prefixes under which player `p` appears among the roster
keys. -/
def teamsSeenFor (keys : List String) (p : String) : List String :=
  keys.filterMap (fun k =>
    match parseCompositeKey k with
    | some (t, q) => if q = p then some t else none
    | none => none)

/-- A `none` lookup survives any sequence of deletions. -/
theorem mapGet_foldl_mapDelete_none (p : String) :
    ∀ (l : List String) (m : List (String × String)),
      mapGet m p = none →
      mapGet (l.foldl (fun m k => mapDelete m k) m) p = none := by
  intro l
  induction l with
  | nil => intro m h; simpa using h
  | cons k rest ih =>
    intro m h
    rw [List.foldl_cons]
    apply ih
    rw [mapGet_mapDelete]
    by_cases hpk : p = k
    · rw [if_pos hpk]
    · rw [if_neg hpk]
      exact h

/-- Deleting every key of a list that contains `p` erases `p`. -/
theorem mapGet_foldl_mapDelete_of_mem (p : String) :
    ∀ (l : List String) (m : List (String × String)),
      p ∈ l →
      mapGet (l.foldl (fun m k => mapDelete m k) m) p = none := by
  intro l
  induction l with
  | nil => intro m h; cases h
  | cons k rest ih =>
    intro m h
    rw [List.foldl_cons]
    by_cases hpk : p = k
    · apply mapGet_foldl_mapDelete_none
      rw [mapGet_mapDelete, if_pos hpk]
    · rcases List.mem_cons.mp h with h1 | h2
      · exact absurd h1 hpk
      · exact ih (mapDelete m k) h2

/-- Invariant of the `buildUniquePlayerTeamMap` fold: for a fixed player
`p`, either `p` has been recorded as conflicting, or the map currently
binds `p` to every team seen for `p` so far (hence to at most one
distinct team). -/
theorem playerTeamFold_invariant (p : String) :
    ∀ (keys : List String) (m : List (String × String)) (c : List String)
      (seen : List String),
      (p ∈ c ∨ ∀ t ∈ seen, mapGet m p = some t) →
      (p ∈ (keys.foldl playerTeamStep (m, c)).2 ∨
        ∀ t ∈ seen ++ teamsSeenFor keys p,
          mapGet (keys.foldl playerTeamStep (m, c)).1 p = some t) := by
  intro keys
  induction keys with
  | nil =>
    intro m c seen h
    simpa [teamsSeenFor] using h
  | cons k rest ih =>
    intro m c seen h
    rw [List.foldl_cons]
    rcases hpk : parseCompositeKey k with _ | ⟨t, q⟩
    · have hstep : playerTeamStep (m, c) k = (m, c) := by
        simp [playerTeamStep, hpk]
      have hts : teamsSeenFor (k :: rest) p = teamsSeenFor rest p := by
        simp [teamsSeenFor, hpk]
      rw [hstep, hts]
      exact ih m c seen h
    · by_cases hq : q = p
      · rw [hq] at hpk
        have hts : teamsSeenFor (k :: rest) p = t :: teamsSeenFor rest p := by
          simp [teamsSeenFor, hpk]
        rw [hts]
        have hre : seen ++ t :: teamsSeenFor rest p =
            (seen ++ [t]) ++ teamsSeenFor rest p := by
          rw [List.append_assoc, List.singleton_append]
        rw [hre]
        rcases hget : mapGet m p with _ | e
        · have hstep : playerTeamStep (m, c) k = (mapSet m p t, c) := by
            simp [playerTeamStep, hpk, hget]
          rw [hstep]
          apply ih
          rcases h with hc | hall
          · exact Or.inl hc
          · right
            intro t2 ht2
            rcases List.mem_append.mp ht2 with hs | hsing
            · have := hall t2 hs
              rw [hget] at this
              exact absurd this (by simp)
            · have ht2t : t2 = t := by simpa using hsing
              rw [ht2t]
              exact mapGet_mapSet_self m p t
        · by_cases het : e = t
          · subst het
            have hstep : playerTeamStep (m, c) k = (m, c) := by
              simp [playerTeamStep, hpk, hget]
            rw [hstep]
            apply ih
            rcases h with hc | hall
            · exact Or.inl hc
            · right
              intro t2 ht2
              rcases List.mem_append.mp ht2 with hs | hsing
              · exact hall t2 hs
              · have ht2e : t2 = e := by simpa using hsing
                rw [ht2e]
                exact hget
          · have hstep : playerTeamStep (m, c) k =
                (mapDelete m p, if p ∈ c then c else c ++ [p]) := by
              simp [playerTeamStep, hpk, hget, het]
            rw [hstep]
            apply ih
            left
            by_cases hc : p ∈ c <;> simp [hc]
      · have hts : teamsSeenFor (k :: rest) p = teamsSeenFor rest p := by
          simp [teamsSeenFor, hpk, hq]
        rw [hts]
        have hqp : p ≠ q := fun h2 => hq h2.symm
        rcases hget : mapGet m q with _ | e
        · have hstep : playerTeamStep (m, c) k = (mapSet m q t, c) := by
            simp [playerTeamStep, hpk, hget]
          rw [hstep]
          apply ih
          rcases h with hc | hall
          · exact Or.inl hc
          · right
            intro t2 ht2
            rw [mapGet_mapSet_ne m q t p hqp]
            exact hall t2 ht2
        · by_cases het : e = t
          · subst het
            have hstep : playerTeamStep (m, c) k = (m, c) := by
              simp [playerTeamStep, hpk, hget]
            rw [hstep]
            exact ih m c seen h
          · have hstep : playerTeamStep (m, c) k =
                (mapDelete m q, if q ∈ c then c else c ++ [q]) := by
              simp [playerTeamStep, hpk, hget, het]
            rw [hstep]
            apply ih
            rcases h with hc | hall
            · left
              by_cases hcq : q ∈ c
              · simpa [hcq] using hc
              · simp [hcq]
                exact Or.inl hc
            · right
              intro t2 ht2
              rw [mapGet_mapDelete, if_neg hqp]
              exact hall t2 ht2

/-- A player id appearing under two different team prefixes is removed
entirely from the final player-to-team lookup. -/
theorem buildUniquePlayerTeamMap_conflict (replay : ReplayModel)
    (k1 k2 t1 t2 p : String)
    (hk1 : k1 ∈ replay.playerNamesByTeamAndId.map (fun e => e.1))
    (hk2 : k2 ∈ replay.playerNamesByTeamAndId.map (fun e => e.1))
    (hp1 : parseCompositeKey k1 = some (t1, p))
    (hp2 : parseCompositeKey k2 = some (t2, p))
    (hne : t1 ≠ t2) :
    mapGet (buildUniquePlayerTeamMap replay) p = none := by
  have ht1 : t1 ∈ teamsSeenFor (replay.playerNamesByTeamAndId.map (fun e => e.1)) p :=
    List.mem_filterMap.mpr ⟨k1, hk1, by simp [hp1]⟩
  have ht2 : t2 ∈ teamsSeenFor (replay.playerNamesByTeamAndId.map (fun e => e.1)) p :=
    List.mem_filterMap.mpr ⟨k2, hk2, by simp [hp2]⟩
  have hinv := playerTeamFold_invariant p
    (replay.playerNamesByTeamAndId.map (fun e => e.1)) [] [] []
    (Or.inr (fun t ht => absurd ht (List.not_mem_nil t)))
  show mapGet
    ((((replay.playerNamesByTeamAndId.map (fun e => e.1)).foldl
        playerTeamStep ([], [])).2).foldl
      (fun m playerId => mapDelete m playerId)
      (((replay.playerNamesByTeamAndId.map (fun e => e.1)).foldl
        playerTeamStep ([], [])).1)) p = none
  rcases hinv with hc | hall
  · exact mapGet_foldl_mapDelete_of_mem p _ _ hc
  · have e1 := hall t1 (by simpa using ht1)
    have e2 := hall t2 (by simpa using ht2)
    rw [e1] at e2
    exact absurd (Option.some.inj e2) hne

/-- `scoreDescComparator` is transitive. -/
theorem scoreDescComparator_trans (a b c : String × Nat)
    (hab : scoreDescComparator a b = true) (hbc : scoreDescComparator b c = true) :
    scoreDescComparator a c = true := by
  simp only [scoreDescComparator, decide_eq_true_eq] at *
  omega

/-- `scoreDescComparator` is total. -/
theorem scoreDescComparator_total (a b : String × Nat) :
    (scoreDescComparator a b || scoreDescComparator b a) = true := by
  simp only [scoreDescComparator, Bool.or_eq_true, decide_eq_true_eq]
  exact Nat.le_total b.2 a.2

/-- A tie for the highest weighted score makes `inferTurnTeamId` return
no decision. -/
theorem inferTurnTeamId_tie (turn : ReplayTurn)
    (playerToTeam : List (String × String)) (t1 t2 : String) (v : Nat)
    (hne : t1 ≠ t2)
    (h1 : (t1, v) ∈ weightedScores turn playerToTeam)
    (h2 : (t2, v) ∈ weightedScores turn playerToTeam)
    (hmax : ∀ e ∈ weightedScores turn playerToTeam, e.2 ≤ v) :
    inferTurnTeamId turn playerToTeam = none := by
  unfold inferTurnTeamId
  have hperm := List.mergeSort_perm (weightedScores turn playerToTeam)
    scoreDescComparator
  have hsorted := List.sorted_mergeSort scoreDescComparator_trans
    scoreDescComparator_total (weightedScores turn playerToTeam)
  cases hr : (weightedScores turn playerToTeam).mergeSort scoreDescComparator with
  | nil =>
    have : (t1, v) ∈ ([] : List (String × Nat)) := by
      rw [← hr]
      exact (hperm.mem_iff).mpr h1
    cases this
  | cons x rest =>
    cases rest with
    | nil =>
      have hm1 : (t1, v) ∈ [x] := by
        rw [← hr]
        exact (hperm.mem_iff).mpr h1
      have hm2 : (t2, v) ∈ [x] := by
        rw [← hr]
        exact (hperm.mem_iff).mpr h2
      have e1 : (t1, v) = x := by simpa using hm1
      have e2 : (t2, v) = x := by simpa using hm2
      have : t1 = t2 := congrArg Prod.fst (e1.trans e2.symm)
      exact absurd this hne
    | cons y rest2 =>
      rw [hr] at hsorted
      rw [List.pairwise_cons] at hsorted
      obtain ⟨hx_all, hsorted2⟩ := hsorted
      rw [List.pairwise_cons] at hsorted2
      obtain ⟨hy_all, _⟩ := hsorted2
      have hmem_sort : ∀ z : String × Nat, z ∈ x :: y :: rest2 →
          z ∈ weightedScores turn playerToTeam := by
        intro z hz
        rw [← hr] at hz
        exact (hperm.mem_iff).mp hz
      have hm1 : (t1, v) ∈ x :: y :: rest2 := by
        rw [← hr]
        exact (hperm.mem_iff).mpr h1
      have hm2 : (t2, v) ∈ x :: y :: rest2 := by
        rw [← hr]
        exact (hperm.mem_iff).mpr h2
      have hx2 : x.2 = v := by
        have hle : x.2 ≤ v := hmax x (hmem_sort x (List.mem_cons_self x _))
        rcases List.mem_cons.mp hm1 with hx1 | htail
        · rw [← hx1]
        · have := hx_all (t1, v) htail
          simp only [scoreDescComparator, decide_eq_true_eq] at this
          omega
      have hy2 : y.2 = v := by
        have hle : y.2 ≤ v := hmax y (hmem_sort y (List.mem_cons_of_mem x (List.mem_cons_self y _)))
        have hz_tail : ∃ tz : String, (tz, v) ∈ y :: rest2 := by
          rcases List.mem_cons.mp hm1 with hx1 | htail1
          · rcases List.mem_cons.mp hm2 with hx2e | htail2
            · exact absurd (congrArg Prod.fst (hx1.trans hx2e.symm)) hne
            · exact ⟨t2, htail2⟩
          · exact ⟨t1, htail1⟩
        obtain ⟨tz, hz⟩ := hz_tail
        rcases List.mem_cons.mp hz with hzy | hz2
        · rw [← hzy]
        · have := hy_all (tz, v) hz2
          simp only [scoreDescComparator, decide_eq_true_eq] at this
          omega
      simp [hy2, hx2]

/-- C4: a player id under two different team prefixes is removed
entirely from the player-to-team lookup, and a tie for the highest
weighted team score — including the degenerate case where the only
scoring events reference a removed player id — makes `inferTurnTeamId`
return no decision. -/
theorem c4_team_attribution :
    (∀ (replay : ReplayModel) (k1 k2 t1 t2 p : String),
      k1 ∈ replay.playerNamesByTeamAndId.map (fun e => e.1) →
      k2 ∈ replay.playerNamesByTeamAndId.map (fun e => e.1) →
      parseCompositeKey k1 = some (t1, p) →
      parseCompositeKey k2 = some (t2, p) →
      t1 ≠ t2 →
      mapGet (buildUniquePlayerTeamMap replay) p = none) ∧
    (∀ (turn : ReplayTurn) (playerToTeam : List (String × String))
      (t1 t2 : String) (v : Nat),
      t1 ≠ t2 →
      (t1, v) ∈ weightedScores turn playerToTeam →
      (t2, v) ∈ weightedScores turn playerToTeam →
      (∀ e ∈ weightedScores turn playerToTeam, e.2 ≤ v) →
      inferTurnTeamId turn playerToTeam = none) ∧
    (∀ (turn : ReplayTurn) (playerToTeam : List (String × String)),
      weightedScores turn playerToTeam = [] →
      inferTurnTeamId turn playerToTeam = none) :=
  ⟨fun replay k1 k2 t1 t2 p hk1 hk2 hp1 hp2 hne =>
    buildUniquePlayerTeamMap_conflict replay k1 k2 t1 t2 p hk1 hk2 hp1 hp2 hne,
   fun turn playerToTeam t1 t2 v hne h1 h2 hmax =>
    inferTurnTeamId_tie turn playerToTeam t1 t2 v hne h1 h2 hmax,
   fun turn playerToTeam hempty => by
    unfold inferTurnTeamId
    rw [hempty, List.mergeSort_nil]⟩

/-- A roster whose player id 9 appears under both team prefixes. -/
def replayConflictRoster : ReplayModel :=
  { playerNamesByTeamAndId := [("0:9", "Own Star"), ("1:9", "Enemy Star")] }

/-- A turn whose two dodge events belong to different teams, scoring 4
for each — a tie. -/
def tieTurn : ReplayTurn :=
  { turnNumber := 1
    events :=
      [{ type := "dodge", sourceTag := "ResultRoll", playerId := some "5" },
       { type := "dodge", sourceTag := "ResultRoll", playerId := some "6" }] }

/-- A lookup resolving the two dodging players to different teams. -/
def tiePlayerToTeam : List (String × String) := [("5", "0"), ("6", "1")]

/-- Witness for C4: the conflicting id "9" resolves to no team, and the
tied turn gets no attribution. -/
theorem c4_witness :
    mapGet (buildUniquePlayerTeamMap replayConflictRoster) "9" = none ∧
    inferTurnTeamId tieTurn tiePlayerToTeam = none :=
  ⟨c4_team_attribution.1 replayConflictRoster "0:9" "1:9" "0" "1" "9"
      (by decide) (by decide) (by decide) (by decide) (by decide),
   c4_team_attribution.2.1 tieTurn tiePlayerToTeam "0" "1" 4
      (by decide) (by decide) (by decide) (by decide)⟩

/-! ## Parser structure lemmas (C1, C3, C5, C8) -/

/-- `finalizeTurn` leaves the events list untouched. -/
theorem finalizeTurn_events (turn : ReplayTurn) :
    (finalizeTurn turn).events = turn.events := rfl

/-- `finalizeTurn` leaves the turn number untouched. -/
theorem finalizeTurn_turnNumber (turn : ReplayTurn) :
    (finalizeTurn turn).turnNumber = turn.turnNumber := rfl

/-- `finalizeTurn` leaves the turnover flag untouched. -/
theorem finalizeTurn_possibleTurnover (turn : ReplayTurn) :
    (finalizeTurn turn).possibleTurnover = turn.possibleTurnover := rfl

/-- `finalizeTurn` leaves the end-turn reason untouched. -/
theorem finalizeTurn_endTurnReason (turn : ReplayTurn) :
    (finalizeTurn turn).endTurnReason = turn.endTurnReason := rfl

/-- `finalizeTurn` leaves the finishing-turn type untouched. -/
theorem finalizeTurn_finishingTurnType (turn : ReplayTurn) :
    (finalizeTurn turn).finishingTurnType = turn.finishingTurnType := rfl

/-- `applySequenceEventsToTurn` appends exactly the block's events. -/
theorem applySequenceEventsToTurn_events (turn : ReplayTurn)
    (events : List ReplayEvent) :
    (applySequenceEventsToTurn turn events).events = turn.events ++ events := by
  unfold applySequenceEventsToTurn
  split
  · next h =>
    rw [List.isEmpty_iff.mp h, List.append_nil]
  · rfl

/-- `applySequenceEventsToTurn` leaves the turn number untouched. -/
theorem applySequenceEventsToTurn_turnNumber (turn : ReplayTurn)
    (events : List ReplayEvent) :
    (applySequenceEventsToTurn turn events).turnNumber = turn.turnNumber := by
  unfold applySequenceEventsToTurn
  split <;> rfl

/-- `applySequenceEventsToTurn` leaves the turnover flag untouched. -/
theorem applySequenceEventsToTurn_possibleTurnover (turn : ReplayTurn)
    (events : List ReplayEvent) :
    (applySequenceEventsToTurn turn events).possibleTurnover =
      turn.possibleTurnover := by
  unfold applySequenceEventsToTurn
  split <;> rfl

/-- `applySequenceEventsToTurn` leaves the ball carrier untouched. -/
theorem applySequenceEventsToTurn_ballCarrier (turn : ReplayTurn)
    (events : List ReplayEvent) :
    (applySequenceEventsToTurn turn events).ballCarrierPlayerId =
      turn.ballCarrierPlayerId := by
  unfold applySequenceEventsToTurn
  split <;> rfl

/-- `endTurnRecordedTurn` leaves the turn number untouched. -/
theorem endTurnRecordedTurn_turnNumber (o : ParserOracles) (turn : ReplayTurn)
    (body : String) :
    (endTurnRecordedTurn o turn body).turnNumber = turn.turnNumber := by
  unfold endTurnRecordedTurn
  dsimp only
  split
  · split <;> rfl
  · rfl

/-- The events `endTurnRecordedTurn` leaves on the turn: the old events,
plus the synthetic turnover event exactly when a reason other than 1 is
present. -/
theorem endTurnRecordedTurn_events (o : ParserOracles) (turn : ReplayTurn)
    (body : String) :
    (endTurnRecordedTurn o turn body).events =
      turn.events ++
        (match o.matchReason body with
         | some r =>
           if r ≠ 1 then
             [{ type := "turnover", sourceTag := "EventEndTurn",
                reasonCode := some r,
                finishingTurnType := o.matchFinishingTurnType body }]
           else []
         | none => []) := by
  unfold endTurnRecordedTurn
  dsimp only
  split
  · next r hr =>
    by_cases h1 : r = 1
    · subst h1; simp
    · simp [h1]
  · simp

/-- An active-gamer token never touches the turns list, and changes at
most the `gamerId` field of the current turn. -/
theorem processToken_activeGamer_eq (o : ParserOracles) (s : ScanState)
    (body : String) :
    ∃ gid,
      (processToken o s ("EventActiveGamerChanged", body)).turns = s.turns ∧
      (processToken o s ("EventActiveGamerChanged", body)).currentTurn =
        { s.currentTurn with gamerId := gid } ∧
      (processToken o s ("EventActiveGamerChanged", body)).foundStructuredData =
        true := by
  have hred : processToken o s ("EventActiveGamerChanged", body) =
      { (match o.matchNewActiveGamer body with
         | some newGamer =>
           if newGamer ≠ "" then
             { s with
               activeGamerId := some newGamer
               currentTurn :=
                 if strTruthy s.currentTurn.gamerId then s.currentTurn
                 else { s.currentTurn with gamerId := some newGamer } }
           else s
         | none => s) with foundStructuredData := true } := rfl
  rw [hred]
  dsimp only
  split
  · rename_i g hgeq
    split
    · split
      · exact ⟨s.currentTurn.gamerId, rfl, rfl, rfl⟩
      · exact ⟨some g, rfl, rfl, rfl⟩
    · exact ⟨s.currentTurn.gamerId, rfl, rfl, rfl⟩
  · exact ⟨s.currentTurn.gamerId, rfl, rfl, rfl⟩

/-- The carrier branch of the scan loop: a trimmed payload that is
neither empty nor "-1" sets the carrier and appends the ball-state
event; an empty or "-1" payload only marks structured data as found,
leaving the current turn — carrier included — untouched. -/
theorem processToken_carrier_eq (o : ParserOracles) (s : ScanState)
    (body : String) :
    processToken o s ("Carrier", body) =
      if jsTrim body ≠ "" ∧ jsTrim body ≠ "-1" then
        { s with
          currentTurn :=
            { s.currentTurn with
              ballCarrierPlayerId := some (jsTrim body)
              events := s.currentTurn.events ++
                [{ type := "ball_state", sourceTag := "Carrier",
                   playerId := some (jsTrim body) }] }
          foundStructuredData := true }
      else { s with foundStructuredData := true } := by
  have hred : processToken o s ("Carrier", body) =
      { (if jsTrim body ≠ "" ∧ jsTrim body ≠ "-1" then
           { s with
             currentTurn :=
               { s.currentTurn with
                 ballCarrierPlayerId := some (jsTrim body)
                 events := s.currentTurn.events ++
                   [{ type := "ball_state", sourceTag := "Carrier",
                      playerId := some (jsTrim body) }] } }
         else s) with foundStructuredData := true } := rfl
  rw [hred]
  split <;> rfl

/-- A sequence-block token only appends the collected events to the
current turn (possibly backfilling its team / gamer ids). -/
theorem processToken_seq_eq (o : ParserOracles) (s : ScanState)
    (body : String) :
    processToken o s ("EventExecuteSequence", body) =
      { s with
        currentTurn :=
          applySequenceEventsToTurn s.currentTurn (collectSequenceEvents o body)
        foundStructuredData := true } := rfl

/-- The end-turn branch of the scan loop, in terms of
`endTurnRecordedTurn`. -/
theorem processToken_endTurn_eq (o : ParserOracles) (s : ScanState)
    (body : String) :
    processToken o s ("EventEndTurn", body) =
      { s with
        turns := s.turns ++ [finalizeTurn (endTurnRecordedTurn o s.currentTurn body)]
        currentTurn := buildTurn (s.currentTurn.turnNumber + 1) s.activeGamerId
        foundStructuredData := true } := rfl

/-- A token with none of the four structural tags leaves the state
untouched. -/
theorem processToken_other_eq (o : ParserOracles) (s : ScanState)
    (t : String × String) (h1 : t.1 ≠ "EventActiveGamerChanged")
    (h2 : t.1 ≠ "Carrier") (h3 : t.1 ≠ "EventExecuteSequence")
    (h4 : t.1 ≠ "EventEndTurn") :
    processToken o s t = s := by
  unfold processToken
  simp only [h1, h2, h3, h4, reduceIte, if_false]

/-- Every event the result-fragment table emits carries one of the six
result event types. -/
theorem resultEventsFor_type (sequenceContext : SequenceContext)
    (parsed : ParsedFragment) (e : ReplayEvent)
    (he : e ∈ resultEventsFor sequenceContext parsed) :
    e.type = "block" ∨ e.type = "blitz" ∨ e.type = "dodge" ∨ e.type = "reroll" ∨
      e.type = "casualty" ∨ e.type = "ball_state" := by
  unfold resultEventsFor at he
  dsimp only at he
  simp only [List.mem_append] at he
  rcases he with h | h | h | h | h | h <;>
    · split at h
      · simp only [List.mem_singleton] at h
        subst h
        simp
      · exact absurd h (List.not_mem_nil e)

/-- Every event `collectSequenceEvents` emits carries one of the six
result event types. -/
theorem collectSequenceEvents_type (o : ParserOracles) (block : String)
    (e : ReplayEvent) (he : e ∈ collectSequenceEvents o block) :
    e.type = "block" ∨ e.type = "blitz" ∨ e.type = "dodge" ∨ e.type = "reroll" ∨
      e.type = "casualty" ∨ e.type = "ball_state" := by
  unfold collectSequenceEvents at he
  dsimp only at he
  simp only [List.mem_append, List.mem_flatMap] at he
  rcases he with h | ⟨m, _, h⟩
  · split at h
    · split at h
      · simp only [List.mem_singleton] at h
        subst h
        simp
      · exact absurd h (List.not_mem_nil e)
    · exact absurd h (List.not_mem_nil e)
  · split at h
    · exact absurd h (List.not_mem_nil e)
    · split at h
      · exact absurd h (List.not_mem_nil e)
      · split at h
        · exact absurd h (List.not_mem_nil e)
        · exact resultEventsFor_type _ _ e h

/-- Appending one token adds one to the end-turn count exactly when the
token's tag is end-turn. -/
theorem countEndTurnTokens_concat (tokens : List (String × String))
    (t : String × String) :
    countEndTurnTokens (tokens ++ [t]) =
      countEndTurnTokens tokens + (if t.1 = "EventEndTurn" then 1 else 0) := by
  unfold countEndTurnTokens
  simp [List.countP_append, List.countP_cons]

/-- A sequence block never emits a turnover event. -/
theorem collectSequenceEvents_no_turnover (o : ParserOracles) (block : String) :
    (collectSequenceEvents o block).filter (fun e => e.type = "turnover") = [] := by
  rw [List.filter_eq_nil_iff]
  intro e he
  rcases collectSequenceEvents_type o block e he with h | h | h | h | h | h <;>
    simp [h]

/-- Every event of a sequence block carries a `ReplayEventType` member
as its type. -/
theorem collectSequenceEvents_typeOk (o : ParserOracles) (block : String) :
    (collectSequenceEvents o block).all eventTypeOk = true := by
  rw [List.all_eq_true]
  intro e he
  rcases collectSequenceEvents_type o block e he with h | h | h | h | h | h <;>
    simp [eventTypeOk, h, replayEventTypeNames]

/-- State invariant of the scan loop: after any token stream, the
finalized turns are numbered consecutively from 1 and number exactly the
end-turn tokens, the current turn is numbered next, carries no turnover
flag and no turnover event, every recorded event type belongs to the
`ReplayEventType` union, and a scan that recognized no structural token
left the state untouched. -/
theorem scanState_invariant (o : ParserOracles) (tokens : List (String × String)) :
    ((tokens.foldl (processToken o) initScanState).turns.map
        (fun turn => turn.turnNumber) =
      List.range' 1 (countEndTurnTokens tokens)) ∧
    ((tokens.foldl (processToken o) initScanState).currentTurn.turnNumber =
      countEndTurnTokens tokens + 1) ∧
    ((tokens.foldl (processToken o) initScanState).currentTurn.possibleTurnover =
      false) ∧
    ((tokens.foldl (processToken o) initScanState).currentTurn.events.filter
        (fun e => e.type = "turnover") = []) ∧
    ((tokens.foldl (processToken o) initScanState).currentTurn.events.all
        eventTypeOk = true) ∧
    (∀ turn ∈ (tokens.foldl (processToken o) initScanState).turns,
      turn.events.all eventTypeOk = true) ∧
    ((tokens.foldl (processToken o) initScanState).foundStructuredData = false →
      tokens.foldl (processToken o) initScanState = initScanState) := by
  induction tokens using List.reverseRecOn with
  | nil =>
    refine ⟨rfl, rfl, rfl, rfl, rfl, ?_, fun _ => rfl⟩
    intro turn h
    exact absurd h (List.not_mem_nil turn)
  | append_singleton ts t ih =>
    obtain ⟨ih1, ih2, ih3, ih4, ih5, ih6, ih7⟩ := ih
    obtain ⟨tag, body⟩ := t
    rw [List.foldl_append, List.foldl_cons, List.foldl_nil,
      countEndTurnTokens_concat]
    by_cases h1 : tag = "EventActiveGamerChanged"
    · subst h1
      obtain ⟨gid, hturns, hcur, hfound⟩ :=
        processToken_activeGamer_eq o (ts.foldl (processToken o) initScanState)
          body
      rw [hturns, hcur, hfound]
      simp only [reduceIte, Nat.add_zero]
      exact ⟨ih1, ih2, ih3, ih4, ih5, ih6, fun h => Bool.noConfusion h⟩
    · by_cases h2 : tag = "Carrier"
      · subst h2
        rw [processToken_carrier_eq]
        simp only [reduceIte, Nat.add_zero]
        by_cases hc : jsTrim body ≠ "" ∧ jsTrim body ≠ "-1"
        · rw [if_pos hc]
          refine ⟨ih1, ih2, ih3, ?_, ?_, ih6, fun h => Bool.noConfusion h⟩
          · dsimp only
            rw [List.filter_append, ih4, List.nil_append]
            rfl
          · dsimp only
            rw [List.all_append, ih5]
            rfl
        · rw [if_neg hc]
          exact ⟨ih1, ih2, ih3, ih4, ih5, ih6, fun h => Bool.noConfusion h⟩
      · by_cases h3 : tag = "EventExecuteSequence"
        · subst h3
          rw [processToken_seq_eq]
          simp only [reduceIte, Nat.add_zero]
          refine ⟨ih1, ?_, ?_, ?_, ?_, ih6, fun h => Bool.noConfusion h⟩
          · dsimp only
            rw [applySequenceEventsToTurn_turnNumber]
            exact ih2
          · dsimp only
            rw [applySequenceEventsToTurn_possibleTurnover]
            exact ih3
          · dsimp only
            rw [applySequenceEventsToTurn_events, List.filter_append, ih4,
              collectSequenceEvents_no_turnover, List.nil_append]
          · dsimp only
            rw [applySequenceEventsToTurn_events, List.all_append, ih5,
              collectSequenceEvents_typeOk]
            rfl
        · by_cases h4 : tag = "EventEndTurn"
          · subst h4
            rw [processToken_endTurn_eq]
            simp only [reduceIte]
            refine ⟨?_, ?_, rfl, rfl, rfl, ?_, fun h => Bool.noConfusion h⟩
            · dsimp only
              rw [List.map_append, ih1, List.range'_concat]
              simp only [List.map_cons, List.map_nil, finalizeTurn_turnNumber,
                endTurnRecordedTurn_turnNumber, ih2]
              simp [Nat.add_comm]
            · dsimp only
              unfold buildTurn
              dsimp only
              rw [ih2]
            · dsimp only
              intro turn hturn
              rcases List.mem_append.mp hturn with h | h
              · exact ih6 turn h
              · rw [List.mem_singleton.mp h, finalizeTurn_events,
                  endTurnRecordedTurn_events, List.all_append, ih5,
                  Bool.true_and]
                split
                · split
                  · rfl
                  · rfl
                · rfl
          · rw [processToken_other_eq o _ _ h1 h2 h3 h4]
            simp only [h4, reduceIte, Nat.add_zero]
            exact ⟨ih1, ih2, ih3, ih4, ih5, ih6, ih7⟩

/-- C1: for every oracle instantiation and every scanned token stream,
`extractStructuredTurnsFromReplayXml` returns turns numbered
consecutively from 1, and — whenever some structural token was
recognized — their number is exactly the number of end-turn tokens,
plus one trailing partial turn exactly when the accumulated current
turn still holds an event or a truthy ball carrier; a scan that
recognized no structural token returns no turns at all. -/
theorem c1_parser_turn_structure (o : ParserOracles)
    (tokens : List (String × String)) :
    ((extractStructuredTurnsFromReplayXml o tokens).map
        (fun turn => turn.turnNumber) =
      List.range' 1 (extractStructuredTurnsFromReplayXml o tokens).length) ∧
    ((extractStructuredTurnsFromReplayXml o tokens).length =
      if (tokens.foldl (processToken o) initScanState).foundStructuredData then
        countEndTurnTokens tokens +
          (if 0 < (tokens.foldl (processToken o)
                initScanState).currentTurn.events.length
              || strTruthy ((tokens.foldl (processToken o)
                initScanState).currentTurn.ballCarrierPlayerId)
           then 1 else 0)
      else 0) := by
  obtain ⟨ih1, ih2, _, _, _, _, ih7⟩ := scanState_invariant o tokens
  have hlen : (tokens.foldl (processToken o) initScanState).turns.length =
      countEndTurnTokens tokens := by
    have h := congrArg List.length ih1
    simpa using h
  unfold extractStructuredTurnsFromReplayXml
  dsimp only
  by_cases hf : (tokens.foldl (processToken o)
      initScanState).foundStructuredData = true
  · rw [if_pos hf, if_pos hf]
    by_cases hflush : (0 < (tokens.foldl (processToken o)
          initScanState).currentTurn.events.length
        || strTruthy ((tokens.foldl (processToken o)
          initScanState).currentTurn.ballCarrierPlayerId)) = true
    · rw [if_pos hflush, if_pos hflush]
      constructor
      · rw [List.map_append, ih1, List.length_append, hlen,
          List.length_singleton, List.map_cons, List.map_nil,
          finalizeTurn_turnNumber, ih2, List.range'_concat]
        simp [Nat.add_comm]
      · rw [List.length_append, hlen, List.length_singleton]
    · rw [if_neg hflush, if_neg hflush]
      rw [ih1, hlen]
      exact ⟨rfl, rfl⟩
  · simp only [Bool.not_eq_true] at hf
    rw [if_neg (by simp [hf]), if_neg (by simp [hf])]
    exact ⟨rfl, rfl⟩

/-- `endTurnRecordedTurn` records the matched reason code. -/
theorem endTurnRecordedTurn_endTurnReason (o : ParserOracles) (turn : ReplayTurn)
    (body : String) :
    (endTurnRecordedTurn o turn body).endTurnReason = o.matchReason body := by
  unfold endTurnRecordedTurn
  dsimp only
  split <;> first | (split <;> rfl) | rfl

/-- `endTurnRecordedTurn` records the matched finishing-turn type. -/
theorem endTurnRecordedTurn_finishingTurnType (o : ParserOracles)
    (turn : ReplayTurn) (body : String) :
    (endTurnRecordedTurn o turn body).finishingTurnType =
      o.matchFinishingTurnType body := by
  unfold endTurnRecordedTurn
  dsimp only
  split <;> first | (split <;> rfl) | rfl

/-- The turnover flag `endTurnRecordedTurn` leaves: raised exactly for a
present reason other than 1, otherwise whatever it already was. -/
theorem endTurnRecordedTurn_possibleTurnover (o : ParserOracles)
    (turn : ReplayTurn) (body : String) :
    (endTurnRecordedTurn o turn body).possibleTurnover =
      (match o.matchReason body with
       | some r => if r ≠ 1 then true else turn.possibleTurnover
       | none => turn.possibleTurnover) := by
  unfold endTurnRecordedTurn
  dsimp only
  split <;> first | (split <;> rfl) | rfl

/-- C3 counterexample: the claimed clearing on an empty or "-1" payload
does not happen.  After a Carrier marker set the carrier to "5", a
Carrier marker with payload "-1" leaves the carrier at "5" instead of
clearing it: the code's guard makes that branch a no-op. -/
theorem c3_counterexample :
    (([("Carrier", "5"), ("Carrier", "-1")]).foldl
        (processToken trivialParserOracles)
        initScanState).currentTurn.ballCarrierPlayerId = some "5" := by decide

/-- C3 (amended): the carrier branch of the scan loop.  A trimmed
payload that is neither empty nor "-1" becomes the current carrier and
appends one ball_state event with sourceTag "Carrier" and playerId =
the payload; an empty or "-1" payload changes nothing beyond marking
structured data as found — in particular it does NOT clear the current
carrier. -/
theorem c3_carrier_marker (o : ParserOracles) (s : ScanState) (body : String) :
    processToken o s ("Carrier", body) =
      if jsTrim body ≠ "" ∧ jsTrim body ≠ "-1" then
        { s with
          currentTurn :=
            { s.currentTurn with
              ballCarrierPlayerId := some (jsTrim body)
              events := s.currentTurn.events ++
                [{ type := "ball_state", sourceTag := "Carrier",
                   playerId := some (jsTrim body) }] }
          foundStructuredData := true }
      else { s with foundStructuredData := true } :=
  processToken_carrier_eq o s body

/-- C5: on every end-turn token reached by a scan, exactly one
finalized turn is pushed; it records the matched reason and
finishing-type codes; when the reason is 1 or absent its turnover flag
stays false and it holds no turnover event; when a reason other than 1
is present its turnover flag is set and it holds exactly one synthetic
turnover event with sourceTag "EventEndTurn" carrying the reason code
(and the matched finishing-turn type). -/
theorem c5_endTurn_reason (o : ParserOracles) (tokens : List (String × String))
    (body : String) (t : ReplayTurn)
    (ht : (processToken o (tokens.foldl (processToken o) initScanState)
        ("EventEndTurn", body)).turns.getLast? = some t) :
    (processToken o (tokens.foldl (processToken o) initScanState)
        ("EventEndTurn", body)).turns.length =
      (tokens.foldl (processToken o) initScanState).turns.length + 1 ∧
    t.endTurnReason = o.matchReason body ∧
    t.finishingTurnType = o.matchFinishingTurnType body ∧
    ((o.matchReason body = none ∨ o.matchReason body = some 1) →
      t.possibleTurnover = false ∧
      t.events.filter (fun e => e.type = "turnover") = []) ∧
    (∀ r : Int, o.matchReason body = some r → r ≠ 1 →
      t.possibleTurnover = true ∧
      t.events.filter (fun e => e.type = "turnover") =
        [{ type := "turnover", sourceTag := "EventEndTurn",
           reasonCode := some r,
           finishingTurnType := o.matchFinishingTurnType body }]) := by
  obtain ⟨_, _, ih3, ih4, _, _, _⟩ := scanState_invariant o tokens
  rw [processToken_endTurn_eq] at ht ⊢
  dsimp only at ht ⊢
  rw [List.getLast?_concat] at ht
  injection ht with ht
  subst ht
  refine ⟨by rw [List.length_append, List.length_singleton], ?_, ?_, ?_, ?_⟩
  · rw [finalizeTurn_endTurnReason, endTurnRecordedTurn_endTurnReason]
  · rw [finalizeTurn_finishingTurnType, endTurnRecordedTurn_finishingTurnType]
  · intro hr
    constructor
    · rw [finalizeTurn_possibleTurnover, endTurnRecordedTurn_possibleTurnover]
      rcases hr with h | h <;> rw [h]
      · exact ih3
      · simp [ih3]
    · rw [finalizeTurn_events, endTurnRecordedTurn_events, List.filter_append,
        ih4, List.nil_append]
      rcases hr with h | h <;> rw [h]
      · rfl
      · simp
  · intro r hr hne
    constructor
    · rw [finalizeTurn_possibleTurnover, endTurnRecordedTurn_possibleTurnover,
        hr]
      simp [hne]
    · rw [finalizeTurn_events, endTurnRecordedTurn_events, List.filter_append,
        ih4, List.nil_append, hr]
      simp [hne]

/-- Witness for C5: a scan of one end-turn token whose reason matcher
yields 2 pushes the concrete finalized turn with the turnover flag set
and exactly the synthetic turnover event. -/
theorem c5_witness :
    ({ turnNumber := 1, possibleTurnover := true, endTurnReason := some 2,
       events := [{ type := "turnover", sourceTag := "EventEndTurn",
                    reasonCode := some 2 }],
       actionTexts := ["turnover", "eventendturn"], eventCount := 1,
       raw := rawSnapshot none (some 2) none } : ReplayTurn).possibleTurnover =
        true ∧
    ({ turnNumber := 1, possibleTurnover := true, endTurnReason := some 2,
       events := [{ type := "turnover", sourceTag := "EventEndTurn",
                    reasonCode := some 2 }],
       actionTexts := ["turnover", "eventendturn"], eventCount := 1,
       raw := rawSnapshot none (some 2) none } : ReplayTurn).events.filter
        (fun e => e.type = "turnover") =
      [{ type := "turnover", sourceTag := "EventEndTurn",
         reasonCode := some 2 }] :=
  (c5_endTurn_reason endTurnReason2Oracles [] "" _ (by decide)).2.2.2.2 2 rfl
    (by decide)

/-- Every event of every extracted turn carries a `ReplayEventType`
member as its type. -/
theorem extract_events_typeOk (o : ParserOracles)
    (tokens : List (String × String)) :
    ∀ turn ∈ extractStructuredTurnsFromReplayXml o tokens,
      turn.events.all eventTypeOk = true := by
  obtain ⟨_, _, _, _, ih5, ih6, _⟩ := scanState_invariant o tokens
  intro turn hturn
  unfold extractStructuredTurnsFromReplayXml at hturn
  dsimp only at hturn
  split at hturn
  · split at hturn
    · rcases List.mem_append.mp hturn with h | h
      · exact ih6 turn h
      · rw [List.mem_singleton.mp h, finalizeTurn_events]
        exact ih5
    · exact ih6 turn hturn
  · exact absurd hturn (List.not_mem_nil turn)

/-- No extracted turn holds an event typed "foul". -/
theorem extract_no_foul (o : ParserOracles) (tokens : List (String × String)) :
    ∀ turn ∈ extractStructuredTurnsFromReplayXml o tokens,
      ∀ e ∈ turn.events, ¬(e.type = "foul") := by
  intro turn hturn e he hf
  have hok := List.all_eq_true.mp (extract_events_typeOk o tokens turn hturn) e he
  unfold eventTypeOk at hok
  have hmem := of_decide_eq_true hok
  rw [hf] at hmem
  revert hmem
  decide

/-- C8: the `ReplayEventType` union has no "foul" member and no parser
path emits one, so on parser output `evaluateFoulTiming` returns no
findings, every turn's foul count is zero, foul contributes nothing to
the cage-safety risky count (dodge + foul), and dropping any prefix of
a turn's events, the reroll-timing risky filter with the foul disjunct
selects exactly what it selects without it. -/
theorem c8_no_foul_events (o : ParserOracles) (tokens : List (String × String))
    (context : TeamContext) :
    "foul" ∉ replayEventTypeNames ∧
    evaluateFoulTiming
        { turns := extractStructuredTurnsFromReplayXml o tokens } context = [] ∧
    (∀ turn ∈ extractStructuredTurnsFromReplayXml o tokens,
      countEvents turn "foul" = 0 ∧
      countEvents turn "dodge" + countEvents turn "foul" =
        countEvents turn "dodge" ∧
      ∀ k : Nat,
        (turn.events.drop k).filter (fun e =>
            e.type = "dodge" || e.type = "block" || e.type = "blitz" ||
              e.type = "foul") =
        (turn.events.drop k).filter (fun e =>
            e.type = "dodge" || e.type = "block" || e.type = "blitz")) := by
  have hcount : ∀ turn ∈ extractStructuredTurnsFromReplayXml o tokens,
      countEvents turn "foul" = 0 := by
    intro turn hturn
    unfold countEvents
    rw [List.length_eq_zero, List.filter_eq_nil_iff]
    intro e he
    simpa using extract_no_foul o tokens turn hturn e he
  refine ⟨by decide, ?_, ?_⟩
  · unfold evaluateFoulTiming
    have h : foulTimingFindings
        { turns := extractStructuredTurnsFromReplayXml o tokens } context = [] := by
      unfold foulTimingFindings
      rw [List.filterMap_eq_nil_iff]
      intro turn hturn
      dsimp only
      rw [hcount turn hturn]
      rfl
    rw [h]
    rfl
  · intro turn hturn
    refine ⟨hcount turn hturn, ?_, ?_⟩
    · rw [hcount turn hturn, Nat.add_zero]
    · intro k
      apply List.filter_congr
      intro e he
      have hne := extract_no_foul o tokens turn hturn e
        (List.mem_of_mem_drop he)
      simp [hne]

/-- Witness for C8: the single turn extracted from a one-token end-turn
scan has a zero foul count. -/
theorem c8_witness :
    countEvents
      { turnNumber := 1, possibleTurnover := true, endTurnReason := some 2,
        events := [{ type := "turnover", sourceTag := "EventEndTurn",
                     reasonCode := some 2 }],
        actionTexts := ["turnover", "eventendturn"], eventCount := 1,
        raw := rawSnapshot none (some 2) none } "foul" = 0 :=
  ((c8_no_foul_events endTurnReason2Oracles [("EventEndTurn", "")]
      { mode := "mixed" }).2.2 _ (by decide)).1

end BBTrainer
